import Mathlib

/-!
Verification of the CourseSpider collection-and-ingestion pipeline.

This file shallowly embeds the pipeline's Python source (collector.py,
database.py, api_server.py) as executable Lean definitions and proves the
specified properties about them.  External I/O (the remote catalog API,
SQLite, wall-clock time) is passed in explicitly as environment arguments;
everything else is translated statement by statement from the source.
-/

namespace CourseSpider

/-! ## Duration parser (collector.py, `parse_duration`)

The source applies the anchored regex `PT(?:(\d+)H)?(?:(\d+)M)?(?:(\d+)S)?`
with `re.match` (prefix match anchored at the start) and computes
`hours * 60 + minutes + (1 if seconds > 0 else 0)`, returning 0 when the
regex does not match.  Because all three groups are optional, the regex
matches exactly the strings that begin with "PT".  For each group, `(\d+)X`
consumes the maximal digit run and requires the marker letter to follow it
directly (backtracking to a shorter digit run can never help because the
following character would then itself be a digit). -/

/-- Value of a digit run, as Python `int()` of the matched group. -/
def digitsToNat (ds : List Char) : Nat :=
  ds.foldl (fun acc c => acc * 10 + (c.toNat - 48)) 0

/-- One `(?:(\d+)X)?` regex component: the maximal digit run followed by the
marker character `suf`.  Returns the numeric value and the rest of the
input, or `none` when the component cannot match here. -/
def matchNumComp (suf : Char) (s : List Char) : Option (Nat × List Char) :=
  match s.span (fun c => c.isDigit) with
  | ([], _) => none
  | (_, []) => none
  | (ds, c :: rest) => if c = suf then some (digitsToNat ds, rest) else none

/-- An optional component: group value 0 and no input consumed on failure
(`int(match.group(i) or 0)`). -/
def optNumComp (suf : Char) (s : List Char) : Nat × List Char :=
  match matchNumComp suf s with
  | none => (0, s)
  | some r => r

/-- `parse_duration` on the character list of the input string. -/
def parseDurationChars : List Char → Nat
  | 'P' :: 'T' :: rest =>
      let h := optNumComp 'H' rest
      let m := optNumComp 'M' h.2
      let s := optNumComp 'S' m.2
      h.1 * 60 + m.1 + (if s.1 > 0 then 1 else 0)
  | _ => 0

/-- `EnhancedCourseCollector.parse_duration` (collector.py lines 117-127). -/
def parse_duration (s : String) : Nat :=
  parseDurationChars s.toList

/-! Canonical inputs of the form `PT[nH][nM][nS]`. -/

/-- Decimal digits of a positive number, most significant first
(empty for 0). -/
def natDecCore (n : Nat) : List Char :=
  if h : n = 0 then []
  else natDecCore (n / 10) ++ [Nat.digitChar (n % 10)]
decreasing_by exact Nat.div_lt_self (Nat.pos_of_ne_zero h) (by omega)

/-- Decimal representation of a number, as written in a duration token. -/
def natDecChars (n : Nat) : List Char :=
  if n = 0 then ['0'] else natDecCore n

/-- One optional duration component `nX` (absent component contributes no
characters). -/
def durComp (o : Option Nat) (suf : Char) : List Char :=
  match o with
  | none => []
  | some n => natDecChars n ++ [suf]

/-- A duration token of the form `PT[nH][nM][nS]`, each component optional. -/
def mkDuration (oh om os : Option Nat) : List Char :=
  'P' :: 'T' :: (durComp oh 'H' ++ (durComp om 'M' ++ durComp os 'S'))

/-! Lemmas about the duration parser. -/

theorem digitsToNat_foldl_acc (l : List Char) (a : Nat) :
    l.foldl (fun acc c => acc * 10 + (c.toNat - 48)) a
      = a * 10 ^ l.length + digitsToNat l := by
  induction l generalizing a with
  | nil => simp [digitsToNat]
  | cons c t ih =>
    have h1 := ih (a * 10 + (c.toNat - 48))
    have h2 := ih (c.toNat - 48)
    simp only [digitsToNat, List.foldl_cons, List.length_cons] at *
    rw [h1]
    simp only [Nat.zero_mul, Nat.zero_add]
    rw [h2]
    ring

theorem digitChar_toNat : ∀ d, d < 10 → (Nat.digitChar d).toNat = 48 + d := by
  decide

theorem digitChar_isDigit : ∀ d, d < 10 → (Nat.digitChar d).isDigit = true := by
  decide

theorem digitsToNat_natDecCore : ∀ n, digitsToNat (natDecCore n) = n := by
  intro n
  induction n using Nat.strong_induction_on with
  | _ n ih =>
    rw [natDecCore]
    split
    · simp [digitsToNat]; omega
    · rename_i hn
      have hlt : n / 10 < n := Nat.div_lt_self (Nat.pos_of_ne_zero hn) (by omega)
      have hmod : n % 10 < 10 := Nat.mod_lt _ (by omega)
      simp only [digitsToNat, List.foldl_append, List.foldl_cons, List.foldl_nil]
      have := digitsToNat_foldl_acc (natDecCore (n / 10)) 0
      simp only [digitsToNat] at ih ⊢
      rw [ih _ hlt, digitChar_toNat _ hmod]
      omega

theorem digitsToNat_natDecChars (n : Nat) : digitsToNat (natDecChars n) = n := by
  unfold natDecChars
  split
  · simp [digitsToNat]; omega
  · exact digitsToNat_natDecCore n

theorem natDecCore_isDigit : ∀ n, ∀ c ∈ natDecCore n, c.isDigit = true := by
  intro n
  induction n using Nat.strong_induction_on with
  | _ n ih =>
    rw [natDecCore]
    split
    · simp
    · rename_i hn
      intro c hc
      have hlt : n / 10 < n := Nat.div_lt_self (Nat.pos_of_ne_zero hn) (by omega)
      rcases List.mem_append.1 hc with h | h
      · exact ih _ hlt c h
      · simp only [List.mem_singleton] at h
        subst h
        exact digitChar_isDigit _ (Nat.mod_lt _ (by omega))

theorem natDecChars_isDigit (n : Nat) : ∀ c ∈ natDecChars n, c.isDigit = true := by
  unfold natDecChars
  split
  · intro c hc; simp only [List.mem_singleton] at hc; subst hc; decide
  · exact natDecCore_isDigit n

theorem natDecChars_ne_nil (n : Nat) : natDecChars n ≠ [] := by
  unfold natDecChars
  split
  · simp
  · rename_i hn
    rw [natDecCore]
    simp [hn]

theorem takeWhile_all_append (p : Char → Bool) (l : List Char) (c : Char)
    (r : List Char) (hl : ∀ x ∈ l, p x = true) (hc : p c = false) :
    (l ++ c :: r).takeWhile p = l := by
  induction l with
  | nil => simp [List.takeWhile_cons, hc]
  | cons a t ih =>
    have ha : p a = true := hl a (by simp)
    simp only [List.cons_append, List.takeWhile_cons, ha, if_true]
    rw [ih (fun x hx => hl x (by simp [hx]))]

theorem dropWhile_all_append (p : Char → Bool) (l : List Char) (c : Char)
    (r : List Char) (hl : ∀ x ∈ l, p x = true) (hc : p c = false) :
    (l ++ c :: r).dropWhile p = c :: r := by
  induction l with
  | nil => simp [List.dropWhile_cons, hc]
  | cons a t ih =>
    have ha : p a = true := hl a (by simp)
    simp only [List.cons_append, List.dropWhile_cons, ha, if_true]
    exact ih (fun x hx => hl x (by simp [hx]))

theorem span_all_append (p : Char → Bool) (l : List Char) (c : Char)
    (r : List Char) (hl : ∀ x ∈ l, p x = true) (hc : p c = false) :
    (l ++ c :: r).span p = (l, c :: r) := by
  rw [List.span_eq_take_drop, takeWhile_all_append p l c r hl hc,
    dropWhile_all_append p l c r hl hc]

theorem matchNumComp_hit (suf : Char) (hsuf : suf.isDigit = false) (n : Nat)
    (rest : List Char) :
    matchNumComp suf (natDecChars n ++ suf :: rest) = some (n, rest) := by
  unfold matchNumComp
  rw [span_all_append _ _ _ _ (natDecChars_isDigit n) hsuf]
  obtain ⟨d, ds, hds⟩ := List.exists_cons_of_ne_nil (natDecChars_ne_nil n)
  rw [hds]
  simp only [if_pos]
  rw [← hds, digitsToNat_natDecChars]

theorem matchNumComp_miss (suf suf2 : Char) (h2 : suf2.isDigit = false)
    (hne : suf2 ≠ suf) (n : Nat) (rest : List Char) :
    matchNumComp suf (natDecChars n ++ suf2 :: rest) = none := by
  unfold matchNumComp
  rw [span_all_append _ _ _ _ (natDecChars_isDigit n) h2]
  obtain ⟨d, ds, hds⟩ := List.exists_cons_of_ne_nil (natDecChars_ne_nil n)
  rw [hds]
  simp [hne]

/-- The remaining input cannot begin another numeric component: it is either
exhausted or starts with a non-digit. -/
def noDigitStart : List Char → Prop
  | [] => True
  | c :: _ => c.isDigit = false

theorem matchNumComp_none (suf : Char) (g : List Char) (hg : noDigitStart g) :
    matchNumComp suf g = none := by
  unfold matchNumComp
  cases g with
  | nil => rfl
  | cons c t =>
    have hc : c.isDigit = false := hg
    rw [List.span_eq_take_drop]
    simp [List.takeWhile_cons, hc]

theorem parseDurationChars_mk (oh om os : Option Nat) (g : List Char)
    (hg : noDigitStart g) :
    parseDurationChars (mkDuration oh om os ++ g)
      = oh.getD 0 * 60 + om.getD 0 + (if 0 < os.getD 0 then 1 else 0) := by
  have hH : ('H').isDigit = false := by decide
  have hM : ('M').isDigit = false := by decide
  have hS : ('S').isDigit = false := by decide
  cases oh <;> cases om <;> cases os <;>
    simp_all [mkDuration, durComp, parseDurationChars, optNumComp,
      matchNumComp_hit, matchNumComp_miss, matchNumComp_none,
      List.append_assoc]

/-- The anchored regex matches exactly the strings that begin with "PT". -/
def startsWithPT (s : String) : Prop :=
  ∃ rest, s.toList = 'P' :: 'T' :: rest

theorem parse_duration_no_pt (s : String) (h : ¬ startsWithPT s) :
    parse_duration s = 0 := by
  unfold parse_duration parseDurationChars
  split
  · rename_i rest heq
    exact absurd ⟨rest, heq⟩ h
  · rfl

theorem parse_duration_mk_garbage (oh om os : Option Nat) (g : List Char)
    (hg : noDigitStart g) :
    parse_duration (String.mk (mkDuration oh om os ++ g))
      = oh.getD 0 * 60 + om.getD 0 + (if 0 < os.getD 0 then 1 else 0) :=
  parseDurationChars_mk oh om os g hg

/-- C4: for every duration string of the form `PT[nH][nM][nS]` (each
component optional), `parse_duration` returns
`hours * 60 + minutes + (1 if seconds > 0 else 0)` (leftover seconds round
up by one minute); every input that the anchored pattern does not match —
i.e. every string not beginning with "PT", since all three components are
optional — yields 0, and the function is total (never raises).  In
particular "PT1H2M3S" ↦ 63, "PT45S" ↦ 1, "PT10M" ↦ 10. -/
theorem C4_parse_duration_rounding :
    (∀ oh om os : Option Nat,
        parse_duration (String.mk (mkDuration oh om os))
          = oh.getD 0 * 60 + om.getD 0 + (if 0 < os.getD 0 then 1 else 0))
    ∧ (∀ s : String, ¬ startsWithPT s → parse_duration s = 0)
    ∧ parse_duration ("PT1H2M3S") = 63
    ∧ parse_duration ("PT45S") = 1
    ∧ parse_duration ("PT10M") = 10 := by
  refine ⟨fun oh om os => ?_, parse_duration_no_pt, by decide, by decide, by decide⟩
  have h := parse_duration_mk_garbage oh om os [] trivial
  simpa using h

/-- Witness for C4 at concrete inputs: "PT2H3M4S" parses to 124 via the
form clause, and "hello" (not starting with "PT") parses to 0. -/
theorem C4_parse_duration_rounding_witness :
    parse_duration (String.mk (mkDuration (some 2) (some 3) (some 4))) = 124
    ∧ parse_duration ("hello") = 0 := by
  constructor
  · simpa using C4_parse_duration_rounding.1 (some 2) (some 3) (some 4)
  · refine C4_parse_duration_rounding.2.1 ("hello") ?_
    rintro ⟨r, hr⟩
    rw [show ("hello").toList = ['h', 'e', 'l', 'l', 'o'] from rfl] at hr
    simp at hr

/-- C8: `parse_duration` matches only an anchored prefix: appending trailing
characters that cannot extend the match (empty, or starting with a
non-digit so that no further `(\d+)X` component can begin there) leaves the
result unchanged, and a string that does not begin with "PT" yields 0 even
when it contains a duration further in (e.g. "xPT1H2M3S"). -/
theorem C8_parse_duration_prefix_only :
    (∀ (oh om os : Option Nat) (g : List Char), noDigitStart g →
        parse_duration (String.mk (mkDuration oh om os ++ g))
          = parse_duration (String.mk (mkDuration oh om os)))
    ∧ (∀ s : String, ¬ startsWithPT s → parse_duration s = 0)
    ∧ parse_duration ("PT45Sabc") = 1
    ∧ parse_duration ("xPT1H2M3S") = 0 := by
  refine ⟨fun oh om os g hg => ?_, parse_duration_no_pt, by decide, by decide⟩
  rw [parse_duration_mk_garbage oh om os g hg]
  have h := parse_duration_mk_garbage oh om os [] trivial
  simpa using h.symm

/-- Witness for C8: "PT1H" with garbage "xyz" appended still parses as
"PT1H" does, and " PT1H" (leading space) parses to 0. -/
theorem C8_parse_duration_prefix_only_witness :
    parse_duration (String.mk (mkDuration (some 1) none none ++ ['x', 'y', 'z']))
      = parse_duration (String.mk (mkDuration (some 1) none none))
    ∧ parse_duration (" PT1H") = 0 := by
  constructor
  · exact C8_parse_duration_prefix_only.1 (some 1) none none ['x', 'y', 'z']
      (show ('x').isDigit = false by decide)
  · refine C8_parse_duration_prefix_only.2.1 (" PT1H") ?_
    rintro ⟨r, hr⟩
    rw [show (" PT1H").toList = [' ', 'P', 'T', '1', 'H'] from rfl] at hr
    simp at hr

/-! ## Language detection (collector.py, `detect_language` /
`get_language_name`)

`detect_language` lowercases title+description, then walks a fixed ordered
table of (language code, regex) rules and returns the first code whose
regex matches (`re.search`).  Each rule's regex is either a
word-boundary-delimited alternation of marker words (`\b(w1|w2|...)\b`) or
an alternation of a unicode code-point range with literal substrings.  We
embed each regex as a decidable matcher over the character list.  The
embedded lowercasing is ASCII (`Char.toLower`), matching Python on the
ASCII range; the marker words and table order are copied verbatim from the
source. -/

/-- A regex word character (`\w`): ASCII alphanumerics, underscore, and —
standing in for unicode word characters — every code point ≥ 0x80. -/
def isWordChar (c : Char) : Bool :=
  c.isAlphanum || c = '_' || decide (c.toNat ≥ 0x80)

/-- Does a non-word character (or the end of input) follow the first
`w.length` characters of `t`?  (The `\b` after the matched word.) -/
def boundaryAfter (w t : List Char) : Bool :=
  match t.drop w.length with
  | [] => true
  | c :: _ => !(isWordChar c)

/-- Scan for a `\b w \b` occurrence; `prev` records whether the character
before the current position is a word character. -/
def containsWordFrom (w : List Char) : Bool → List Char → Bool
  | _, [] => false
  | prev, c :: rest =>
      (!prev && w.isPrefixOf (c :: rest) && boundaryAfter w (c :: rest))
        || containsWordFrom w (isWordChar c) rest

/-- `re.search(r'\b(w)\b', t)` for one marker word `w`. -/
def containsWord (w t : List Char) : Bool :=
  containsWordFrom w false t

/-- Plain substring search (an unanchored literal alternative). -/
def containsSub (w : List Char) : List Char → Bool
  | [] => decide (w = [])
  | c :: rest => w.isPrefixOf (c :: rest) || containsSub w rest

/-- One language rule's regex: either `\b(w1|w2|...)\b` marker words, or a
unicode code-point range alternated with literal substrings. -/
inductive LangPattern where
  | words : List String → LangPattern
  | scriptOr : List (Nat × Nat) → List String → LangPattern

/-- `re.search(pattern, text)` for the two regex shapes in the table. -/
def matchesPat (p : LangPattern) (text : List Char) : Bool :=
  match p with
  | LangPattern.words ws => ws.any (fun w => containsWord w.toList text)
  | LangPattern.scriptOr ranges subs =>
      text.any (fun c => ranges.any (fun r => decide (r.1 ≤ c.toNat) && decide (c.toNat ≤ r.2)))
        || subs.any (fun w => containsSub w.toList text)

/-- The `language_patterns` table (collector.py lines 81-97), in source
order. -/
def language_patterns : List (String × LangPattern) :=
  [ (("en"), LangPattern.words [("english"), ("tutorial"), ("course"), ("learn"), ("guide")]),
    (("es"), LangPattern.words [("español"), ("tutorial"), ("curso"), ("aprende"), ("guía")]),
    (("zh"), LangPattern.scriptOr [(0x4e00, 0x9fa5)] [("中文"), ("教程"), ("课程")]),
    (("hi"), LangPattern.scriptOr [(0x900, 0x97F)] [("हिंदी"), ("ट्यूटोरियल")]),
    (("ar"), LangPattern.scriptOr [(0x600, 0x6FF)] [("عربي"), ("دروس")]),
    (("pt"), LangPattern.words [("português"), ("tutorial"), ("curso"), ("aprenda")]),
    (("fr"), LangPattern.words [("français"), ("tutoriel"), ("cours"), ("apprendre")]),
    (("de"), LangPattern.words [("deutsch"), ("tutorial"), ("kurs"), ("lernen")]),
    (("ja"), LangPattern.scriptOr [(0x3040, 0x309F), (0x30A0, 0x30FF)] [("日本語"), ("チュートリアル")]),
    (("ko"), LangPattern.scriptOr [(0xAC00, 0xD7AF)] [("한국어"), ("튜토리얼")]),
    (("ru"), LangPattern.scriptOr [(0x400, 0x4FF)] [("русский"), ("учебник")]),
    (("it"), LangPattern.words [("italiano"), ("tutorial"), ("corso"), ("imparare")]),
    (("tr"), LangPattern.words [("türkçe"), ("eğitim"), ("kurs"), ("öğren")]),
    (("id"), LangPattern.words [("indonesia"), ("tutorial"), ("kursus"), ("belajar")]),
    (("vi"), LangPattern.words [("tiếng việt"), ("hướng dẫn"), ("khóa học")]) ]

/-- The fields of a video/playlist `snippet` dict that the classifier and
assembler read.  Absent dict keys are `none`. -/
structure Snippet where
  title : String
  description : String
  defaultLanguage : Option String
  defaultAudioLanguage : Option String
  channelId : String
  publishedAt : String
  thumbMedium : Option String
  thumbHigh : Option String
  channelTitle : String
deriving Repr, DecidableEq

/-- Python's `a or b` for an optional string `a`: an absent or empty
(falsy) value falls through to `b`. -/
def pyOr (a : Option String) (b : String) : String :=
  match a with
  | some s => if s = "" then b else s
  | none => b

/-- `snippet.get('defaultLanguage') or snippet.get('defaultAudioLanguage')
or 'en'`. -/
def declaredDefault (s : Snippet) : String :=
  pyOr s.defaultLanguage (pyOr s.defaultAudioLanguage ("en"))

/-- `text = (title + ' ' + description).lower()` (ASCII lowering). -/
def lowerText (s : Snippet) : List Char :=
  (s.title ++ " " ++ s.description).toList.map Char.toLower

/-- The `for code, pattern in language_patterns.items()` loop with its
early `return code`. -/
def findLang : List (String × LangPattern) → List Char → Option String
  | [], _ => none
  | (code, pat) :: rest, text =>
      if matchesPat pat text then some code else findLang rest text

/-- `EnhancedCourseCollector.detect_language` (collector.py lines 74-105). -/
def detect_language (s : Snippet) : String :=
  match findLang language_patterns (lowerText s) with
  | some code => code
  | none => declaredDefault s

/-- The `languages` code → display-name table (collector.py lines 109-114). -/
def languages : List (String × String) :=
  [ (("en"), ("English")), (("es"), ("Spanish")), (("zh"), ("Chinese")),
    (("hi"), ("Hindi")), (("ar"), ("Arabic")), (("pt"), ("Portuguese")),
    (("fr"), ("French")), (("de"), ("German")), (("ja"), ("Japanese")),
    (("ko"), ("Korean")), (("ru"), ("Russian")), (("it"), ("Italian")),
    (("tr"), ("Turkish")), (("id"), ("Indonesian")), (("vi"), ("Vietnamese")) ]

/-- `EnhancedCourseCollector.get_language_name`: `languages.get(code,
'English')`. -/
def get_language_name (code : String) : String :=
  match languages.find? (fun p => p.1 = code) with
  | some p => p.2
  | none => ("English")

theorem findLang_eq_find? (l : List (String × LangPattern)) (text : List Char) :
    findLang l text = (l.find? (fun r => matchesPat r.2 text)).map Prod.fst := by
  induction l with
  | nil => rfl
  | cons r rest ih =>
    obtain ⟨code, pat⟩ := r
    simp only [findLang, List.find?_cons]
    by_cases h : matchesPat pat text
    · simp [h]
    · simp only [h, if_false]
      rw [ih]
      simp [Bool.not_eq_true] at h
      simp [h]

/-- C7: `detect_language` returns the code of the FIRST rule (in the fixed
table order) whose pattern matches the lowercased title+description; a text
matching both the English marker-word rule and the later Chinese script
rule yields "en"; when no rule matches, the declared default language is
returned (falling back to "en" when none is supplied); and
`get_language_name` maps any code outside its fixed table to "English". -/
theorem C7_detect_language_first_match :
    (∀ s : Snippet,
        detect_language s
          = ((language_patterns.find? (fun r => matchesPat r.2 (lowerText s))).map
              Prod.fst).getD (declaredDefault s))
    ∧ (∀ s : Snippet,
        (∀ r ∈ language_patterns, matchesPat r.2 (lowerText s) = false) →
          detect_language s = pyOr s.defaultLanguage (pyOr s.defaultAudioLanguage ("en")))
    ∧ detect_language ⟨"course 中文", "", none, none, "", "", none, none, ""⟩ = "en"
    ∧ matchesPat (LangPattern.scriptOr [(0x4e00, 0x9fa5)] [("中文"), ("教程"), ("课程")])
        (lowerText ⟨"course 中文", "", none, none, "", "", none, none, ""⟩) = true
    ∧ detect_language ⟨"", "", some ("fr-CA"), none, "", "", none, none, ""⟩ = "fr-CA"
    ∧ detect_language ⟨"", "", none, none, "", "", none, none, ""⟩ = "en"
    ∧ (∀ code : String, languages.find? (fun p => p.1 = code) = none →
        get_language_name code = ("English"))
    ∧ get_language_name ("xx") = ("English") := by
  have hmain : ∀ s : Snippet,
      detect_language s
        = ((language_patterns.find? (fun r => matchesPat r.2 (lowerText s))).map
            Prod.fst).getD (declaredDefault s) := by
    intro s
    unfold detect_language
    rw [findLang_eq_find?]
    cases h : language_patterns.find? (fun r => matchesPat r.2 (lowerText s)) <;> simp [h]
  refine ⟨hmain, fun s hall => ?_, by decide, by decide, by decide, by decide,
    fun code hnone => ?_, by decide⟩
  · rw [hmain s]
    have : language_patterns.find? (fun r => matchesPat r.2 (lowerText s)) = none := by
      rw [List.find?_eq_none]
      intro r hr
      simp [hall r hr]
    simp [this, declaredDefault]
  · unfold get_language_name
    rw [hnone]

/-- Witness for C7: a snippet matching no rule returns its declared default
("xx"), and a code outside the table maps to "English". -/
theorem C7_detect_language_first_match_witness :
    detect_language ⟨"zzz", "", some ("xx"), none, "", "", none, none, ""⟩ = "xx"
    ∧ get_language_name ("zz") = ("English") := by
  constructor
  · exact C7_detect_language_first_match.2.1
      ⟨"zzz", "", some ("xx"), none, "", "", none, none, ""⟩ (by decide)
  · exact C7_detect_language_first_match.2.2.2.2.2.2.1 ("zz") (by decide)

/-! ## Playlist paging (collector.py, `get_playlist_videos`)

The source loops `playlistItems().list` requests, extending `videos` with
each page's items and following `nextPageToken` until it is absent or falsy
(the loop breaks on `if not page_token`).  The whole loop sits in a single
`try`; on `HttpError` the `except` branch returns `[]` — discarding
everything accumulated so far.  We model the remote interaction as the
sequence of page responses the API would deliver. -/

/-- One entry of a playlistItems page (only the fields the assembler
reads). -/
structure PlaylistItem where
  videoId : String
deriving Repr, DecidableEq

/-- One remote page response: items plus optional `nextPageToken`, or a
transport error (`HttpError`). -/
inductive PageResult where
  | ok : List PlaylistItem → Option String → PageResult
  | err : PageResult
deriving Repr, DecidableEq

/-- The `while True` request loop, carrying the accumulated `videos`. -/
def gpvLoop : List PageResult → List PlaylistItem → List PlaylistItem
  | [], acc => acc
  | PageResult.err :: _, _ => []
  | PageResult.ok items tok :: rest, acc =>
      let acc2 := acc ++ items
      match tok with
      | none => acc2
      | some t => if t = "" then acc2 else gpvLoop rest acc2

/-- `EnhancedCourseCollector.get_playlist_videos` (collector.py lines
164-188), as a function of the page responses the remote API returns. -/
def get_playlist_videos (pages : List PageResult) : List PlaylistItem :=
  gpvLoop pages []

/-- The items carried by a successful page. -/
def pageItems : PageResult → List PlaylistItem
  | PageResult.ok items _ => items
  | PageResult.err => []

/-- Every page in the list is successful and carries a non-empty
continuation token (so the loop keeps paging). -/
def allOkCont (ps : List PageResult) : Prop :=
  ∀ p ∈ ps, ∃ items t, p = PageResult.ok items (some t) ∧ t ≠ ""

theorem gpvLoop_err (ps : List PageResult) (acc : List PlaylistItem)
    (rest : List PageResult) (h : allOkCont ps) :
    gpvLoop (ps ++ PageResult.err :: rest) acc = [] := by
  induction ps generalizing acc with
  | nil => rfl
  | cons p t ih =>
    obtain ⟨items, tok, rfl, htok⟩ := h p (by simp)
    simp only [List.cons_append, gpvLoop, if_neg htok]
    exact ih _ (fun q hq => h q (by simp [hq]))

theorem gpvLoop_done (ps : List PageResult) (acc items : List PlaylistItem)
    (tok : Option String) (rest : List PageResult) (h : allOkCont ps)
    (htok : tok = none ∨ tok = some "") :
    gpvLoop (ps ++ PageResult.ok items tok :: rest) acc
      = acc ++ (ps.map pageItems).flatten ++ items := by
  induction ps generalizing acc with
  | nil =>
    rcases htok with rfl | rfl <;> simp [gpvLoop]
  | cons p t ih =>
    obtain ⟨pitems, ptok, rfl, hptok⟩ := h p (by simp)
    simp only [List.cons_append, gpvLoop, if_neg hptok, List.append_eq]
    rw [ih _ (fun q hq => h q (by simp [hq]))]
    simp [pageItems, List.append_assoc]

/-- C1 as stated is FALSE: after one successful page (with a continuation
token) followed by an erroring page, the code returns `[]`, not the items
of the successful page. -/
theorem C1_counterexample :
    get_playlist_videos
        [PageResult.ok [⟨("v1")⟩] (some ("tok")), PageResult.err] = []
    ∧ get_playlist_videos
        [PageResult.ok [⟨("v1")⟩] (some ("tok")), PageResult.err]
      ≠ [⟨("v1")⟩] := by
  constructor
  · decide
  · decide

/-- C1 amended: the listing operation pages through continuation tokens
until none remain (or the token is falsy), concatenating the pages' items
in order; but on a remote error at any page it returns the EMPTY list,
discarding the items accumulated from the pages already fetched (it still
never raises — the function is total). -/
theorem C1_paging_error_behavior :
    (∀ (ps : List PageResult) (rest : List PageResult), allOkCont ps →
        get_playlist_videos (ps ++ PageResult.err :: rest) = [])
    ∧ (∀ (ps : List PageResult) (items : List PlaylistItem)
        (rest : List PageResult), allOkCont ps →
        get_playlist_videos (ps ++ PageResult.ok items none :: rest)
          = (ps.map pageItems).flatten ++ items) := by
  constructor
  · intro ps rest h
    exact gpvLoop_err ps [] rest h
  · intro ps items rest h
    have := gpvLoop_done ps [] items none rest h (Or.inl rfl)
    simpa using this

/-- Witness for the amended C1: one successful continuing page followed by
an error yields `[]`; two pages ending without a token yield both pages'
items in order. -/
theorem C1_paging_error_behavior_witness :
    get_playlist_videos
        [PageResult.ok [⟨("a")⟩] (some ("t1")), PageResult.err] = []
    ∧ get_playlist_videos
        [PageResult.ok [⟨("a")⟩] (some ("t1")),
         PageResult.ok [⟨("b")⟩] none] = [⟨("a")⟩, ⟨("b")⟩] := by
  constructor
  · exact C1_paging_error_behavior.1 [PageResult.ok [⟨("a")⟩] (some ("t1"))] []
      (by rintro p hp; simp only [List.mem_singleton] at hp; subst hp
          exact ⟨[⟨("a")⟩], ("t1"), rfl, by decide⟩)
  · have := C1_paging_error_behavior.2 [PageResult.ok [⟨("a")⟩] (some ("t1"))]
      [⟨("b")⟩] []
      (by rintro p hp; simp only [List.mem_singleton] at hp; subst hp
          exact ⟨[⟨("a")⟩], ("t1"), rfl, by decide⟩)
    simpa [pageItems] using this

/-! ## Tag extraction and subcategory classification (collector.py,
`extract_tags` / `determine_subcategory`) -/

/-- The fixed tag vocabulary (collector.py lines 222-226), in declaration
order. -/
def common_tags : List String :=
  [ ("beginner"), ("intermediate"), ("advanced"), ("tutorial"), ("course"),
    ("complete"), ("full"), ("crash course"), ("bootcamp"), ("masterclass"),
    ("certification"), ("project"), ("hands-on"), ("practical"), ("theory"),
    ("2024"), ("2025") ]

/-- `EnhancedCourseCollector.extract_tags`: the subset of the vocabulary
occurring as a substring of the lowercased text, in vocabulary order. -/
def extract_tags (text : String) : List String :=
  let lower_text := text.toList.map Char.toLower
  common_tags.filter (fun tag => containsSub tag.toList lower_text)

/-- `EnhancedCourseCollector.determine_subcategory` (collector.py lines
237-277): ordered substring rules for three parent categories; otherwise
the category unchanged. -/
def determine_subcategory (category : String) (text : String) : String :=
  let t := text.toList.map Char.toLower
  if category = "Web Dev" then
    if containsSub ("react").toList t then ("React")
    else if containsSub ("vue").toList t then ("Vue.js")
    else if containsSub ("angular").toList t then ("Angular")
    else if containsSub ("node").toList t then ("Node.js")
    else if containsSub ("frontend").toList t then ("Frontend")
    else if containsSub ("backend").toList t then ("Backend")
    else if containsSub ("fullstack").toList t || containsSub ("full stack").toList t then
      ("Full Stack")
    else category
  else if category = "AI/ML" then
    if containsSub ("tensorflow").toList t then ("TensorFlow")
    else if containsSub ("pytorch").toList t then ("PyTorch")
    else if containsSub ("deep learning").toList t then ("Deep Learning")
    else if containsSub ("computer vision").toList t then ("Computer Vision")
    else if containsSub ("nlp").toList t || containsSub ("natural language").toList t then
      ("NLP")
    else category
  else if category = "Programming" then
    if containsSub ("python").toList t then ("Python")
    else if containsSub ("javascript").toList t then ("JavaScript")
    else if containsSub ("java").toList t && !containsSub ("javascript").toList t then
      ("Java")
    else if containsSub ("c++").toList t then ("C++")
    else category
  else category

/-! ## Course assembly (collector.py, `process_playlist`)

All remote lookups are passed in as an environment `YtEnv`; the playlist
paging uses the `get_playlist_videos` model above.  Wall-clock timestamps
(`datetime.utcnow()`) enter as the `now` argument. -/

/-- Author value object of a course record. -/
structure Author where
  name : String
  channel_id : String
  homepage : String
  subscribers : Nat
deriving Repr, DecidableEq

/-- One lesson of an assembled course. -/
structure Lesson where
  idx : Nat
  title : String
  video_id : String
  duration_min : Nat
  description : String
  thumbnail : String
  published_at : String
  view_count : Nat
  like_count : Nat
deriving Repr, DecidableEq

/-- One assembled course record (the dict built at collector.py lines
337-361). -/
structure Course where
  youtube_id : String
  url : String
  category : String
  subcategory : String
  title : String
  author : Author
  description : String
  duration_min : Nat
  lesson_count : Nat
  lessons : List Lesson
  language : String
  language_name : String
  thumbnail : String
  published_at : String
  last_updated : String
  verified_free : Bool
  scraped_at : String
  tags : List String
deriving Repr, DecidableEq

/-- One `videos().list` result entry (fields the assembler reads;
`statistics` keys may be absent). -/
structure VideoDetail where
  id : String
  snippet : Snippet
  duration : String
  viewCount : Option Nat
  likeCount : Option Nat
deriving Repr, DecidableEq

/-- A `playlists().list` result entry. -/
structure PlaylistDetails where
  snippet : Snippet
deriving Repr, DecidableEq

/-- A `channels().list` result entry (`statistics.subscriberCount` may be
absent). -/
structure ChannelDetails where
  subscriberCount : Option Nat
deriving Repr, DecidableEq

/-- A search result's id: either the nested `{'playlistId': ...}` dict
shape or the id itself (`playlist_item.get('id', {}).get('playlistId') or
playlist_item.get('id')`). -/
inductive SearchId where
  | nested : String → SearchId
  | plain : String → SearchId
deriving Repr, DecidableEq

/-- One search result. -/
structure SearchItem where
  id : SearchId
  snippet : Snippet
deriving Repr, DecidableEq

/-- Resolve the candidate's playlist id, accepting both shapes. -/
def resolvePlaylistId : SearchId → String
  | SearchId.nested p => p
  | SearchId.plain p => p

/-- The remote catalog, as the responses it would return per request. -/
structure YtEnv where
  playlistDetails : String → Option PlaylistDetails
  playlistPages : String → List PageResult
  videoDetailsBatch : List String → List VideoDetail
  channelDetails : String → Option ChannelDetails

/-- `EnhancedCourseCollector.get_video_details`: empty input short-circuits
to `[]`; otherwise one batched remote call (whose error case the
environment models by returning `[]`). -/
def get_video_details (env : YtEnv) (ids : List String) : List VideoDetail :=
  if ids = [] then [] else env.videoDetailsBatch ids

/-- `for i in range(0, len(video_ids), 50)`: split into chunks of at most
50. -/
def chunk50 (l : List String) : List (List String) :=
  if h : l = [] then []
  else l.take 50 :: chunk50 (l.drop 50)
termination_by l.length
decreasing_by
  have hl : l.length ≠ 0 := fun hn => h (List.eq_nil_of_length_eq_zero hn)
  simp only [List.length_drop]
  omega

/-- One lesson from the i-th video detail (0-based `i`, 1-based `idx`). -/
def mkLesson (i : Nat) (v : VideoDetail) : Lesson :=
  { idx := i + 1
    title := v.snippet.title
    video_id := v.id
    duration_min := parse_duration v.duration
    description := v.snippet.description
    thumbnail := v.snippet.thumbMedium.getD ""
    published_at := v.snippet.publishedAt
    view_count := v.viewCount.getD 0
    like_count := v.likeCount.getD 0 }

/-- The `for i, video in enumerate(video_details)` lesson-building loop. -/
def buildLessons : Nat → List VideoDetail → List Lesson
  | _, [] => []
  | i, v :: rest => mkLesson i v :: buildLessons (i + 1) rest

/-- `EnhancedCourseCollector.process_playlist` (collector.py lines
279-364). -/
def process_playlist (env : YtEnv) (now : String) (item : SearchItem)
    (category : String) : Option Course :=
  match env.playlistDetails (resolvePlaylistId item.id) with
  | none => none
  | some details =>
    if (get_playlist_videos (env.playlistPages (resolvePlaylistId item.id))).length < 5
    then none
    else
      let playlist_id := resolvePlaylistId item.id
      let playlist_videos := get_playlist_videos (env.playlistPages playlist_id)
      let video_ids := playlist_videos.map (fun v => v.videoId)
      let video_details := (chunk50 video_ids).flatMap (get_video_details env)
      let channel_id := details.snippet.channelId
      let channel_details := env.channelDetails channel_id
      let total_duration := (video_details.map (fun v => parse_duration v.duration)).sum
      let lessons := buildLessons 0 video_details
      let language_code := detect_language details.snippet
      let text := details.snippet.title ++ " " ++ details.snippet.description
      some
        { youtube_id := playlist_id
          url := ("https://www.youtube.com/playlist?list=") ++ playlist_id
          category := category
          subcategory := determine_subcategory category text
          title := details.snippet.title
          author :=
            { name := details.snippet.channelTitle
              channel_id := channel_id
              homepage := ("https://www.youtube.com/channel/") ++ channel_id
              subscribers :=
                match channel_details with
                | some ch => ch.subscriberCount.getD 0
                | none => 0 }
          description := details.snippet.description
          duration_min := total_duration
          lesson_count := lessons.length
          lessons := lessons
          language := language_code
          language_name := get_language_name language_code
          thumbnail := details.snippet.thumbHigh.getD ""
          published_at := details.snippet.publishedAt
          last_updated := now
          verified_free := true
          scraped_at := now
          tags := extract_tags text }

/-- A minimal snippet for concrete admission-rule instances. -/
def snipBasic : Snippet :=
  ⟨"t", "", none, none, "c", "", none, none, "ch"⟩

/-- A concrete candidate. -/
def itemA : SearchItem :=
  ⟨SearchId.nested ("PL1"), snipBasic⟩

/-- A catalog environment whose playlist has exactly `n` videos (one page,
no continuation token), details always present. -/
def envWithN (n : Nat) : YtEnv :=
  { playlistDetails := fun _ => some ⟨snipBasic⟩
    playlistPages := fun _ => [PageResult.ok (List.replicate n ⟨("v")⟩) none]
    videoDetailsBatch := fun ids => ids.map (fun i => ⟨i, snipBasic, ("PT10M"), none, none⟩)
    channelDetails := fun _ => none }

/-- A catalog environment whose detail lookup finds nothing. -/
def envNoDetails : YtEnv :=
  { playlistDetails := fun _ => none
    playlistPages := fun _ => []
    videoDetailsBatch := fun _ => []
    channelDetails := fun _ => none }

/-- C5: the assembler rejects a candidate (returns none, producing no
partial record) when the item detail fetch returns nothing or when fewer
than 5 sub-items are found, and builds a course when 5 or more are found;
exactly 4 sub-items is rejected and exactly 5 accepted. -/
theorem C5_minimum_content_admission :
    (∀ (env : YtEnv) (now : String) (item : SearchItem) (category : String),
        env.playlistDetails (resolvePlaylistId item.id) = none →
        process_playlist env now item category = none)
    ∧ (∀ (env : YtEnv) (now : String) (item : SearchItem) (category : String)
        (details : PlaylistDetails),
        env.playlistDetails (resolvePlaylistId item.id) = some details →
        (get_playlist_videos (env.playlistPages (resolvePlaylistId item.id))).length < 5 →
        process_playlist env now item category = none)
    ∧ (∀ (env : YtEnv) (now : String) (item : SearchItem) (category : String)
        (details : PlaylistDetails),
        env.playlistDetails (resolvePlaylistId item.id) = some details →
        5 ≤ (get_playlist_videos (env.playlistPages (resolvePlaylistId item.id))).length →
        (process_playlist env now item category).isSome = true)
    ∧ process_playlist (envWithN 4) ("t0") itemA ("AI/ML") = none
    ∧ (process_playlist (envWithN 5) ("t0") itemA ("AI/ML")).isSome = true := by
  refine ⟨fun env now item category h => ?_,
    fun env now item category details h hlt => ?_,
    fun env now item category details h hge => ?_, by decide, by decide⟩
  · unfold process_playlist
    split
    · rfl
    · rename_i d heq
      rw [h] at heq
      exact absurd heq (by simp)
  · unfold process_playlist
    split
    · rfl
    · rename_i d heq
      rw [h] at heq
      injection heq with hd
      subst hd
      rw [if_pos hlt]
  · unfold process_playlist
    split
    · rename_i heq
      rw [h] at heq
      exact absurd heq (by simp)
    · rename_i d heq
      rw [h] at heq
      injection heq with hd
      subst hd
      rw [if_neg (Nat.not_lt.mpr hge)]
      rfl

/-- Witness for C5: with details absent the candidate is rejected, and with
5 videos it is accepted. -/
theorem C5_minimum_content_admission_witness :
    process_playlist envNoDetails ("t0") itemA ("AI/ML") = none
    ∧ (process_playlist (envWithN 5) ("t0") itemA ("AI/ML")).isSome = true := by
  constructor
  · exact C5_minimum_content_admission.1 envNoDetails ("t0") itemA ("AI/ML") rfl
  · exact C5_minimum_content_admission.2.2.1 (envWithN 5) ("t0") itemA ("AI/ML")
      ⟨snipBasic⟩ rfl (by decide)

/-! ## JSON tag-list codec (database.py)

`insert_course` stores the tag list as `json.dumps(course.get('tags', []))`
(default `ensure_ascii=True`, default `", "` item separator) and the read
paths recover it with `json.loads(course['tags']) if course['tags'] else
[]` inside a `try/except` that falls back to `[]`.  We embed the encoder
exactly as `json.dumps` serializes a list of strings (escapes, `\uXXXX`
for control and non-ASCII characters, surrogate pairs for astral ones) and
the decoder as the accepting subset of `json.loads` on such documents. -/

/-- Four lowercase hex digits, as `json.dumps` writes `\uXXXX`. -/
def hex4 (n : Nat) : List Char :=
  [Nat.digitChar (n / 4096 % 16), Nat.digitChar (n / 256 % 16),
   Nat.digitChar (n / 16 % 16), Nat.digitChar (n % 16)]

/-- A `\uXXXX` escape. -/
def escU (n : Nat) : List Char :=
  '\\' :: 'u' :: hex4 n

/-- `json.dumps` encoding of one character inside a string literal
(`ensure_ascii=True`). -/
def encChar (c : Char) : List Char :=
  if c = '"' then ['\\', '"']
  else if c = '\\' then ['\\', '\\']
  else if c = '\n' then ['\\', 'n']
  else if c = '\t' then ['\\', 't']
  else if c = '\r' then ['\\', 'r']
  else if c.toNat = 8 then ['\\', 'b']
  else if c.toNat = 12 then ['\\', 'f']
  else if c.toNat < 32 then escU c.toNat
  else if c.toNat < 128 then [c]
  else if c.toNat < 65536 then escU c.toNat
  else escU (55296 + (c.toNat - 65536) / 1024)
        ++ escU (56320 + (c.toNat - 65536) % 1024)

/-- A JSON string literal. -/
def encString (s : String) : List Char :=
  '"' :: (s.toList.flatMap encChar ++ ['"'])

/-- The rest of a JSON array after its first element: `", item"` repeated,
then `]`. -/
def encItemsRest : List String → List Char
  | [] => [']']
  | t :: ts => ',' :: ' ' :: (encString t ++ encItemsRest ts)

/-- `json.dumps` of a list of strings. -/
def encTags : List String → List Char
  | [] => ['[', ']']
  | t :: ts => '[' :: (encString t ++ encItemsRest ts)

/-- Value of one hex digit, as `json.loads` reads `\uXXXX`. -/
def hexVal (c : Char) : Option Nat :=
  if '0' ≤ c ∧ c ≤ '9' then some (c.toNat - 48)
  else if 'a' ≤ c ∧ c ≤ 'f' then some (c.toNat - 87)
  else if 'A' ≤ c ∧ c ≤ 'F' then some (c.toNat - 55)
  else none

/-- Value of a four-digit hex escape. -/
def hex4val (a b c d : Char) : Option Nat :=
  match hexVal a, hexVal b, hexVal c, hexVal d with
  | some x, some y, some z, some w => some (x * 4096 + y * 256 + z * 16 + w)
  | _, _, _, _ => none

/-- One-character JSON escapes. -/
def unescape (e : Char) : Option Char :=
  if e = '"' then some '"'
  else if e = '\\' then some '\\'
  else if e = '/' then some '/'
  else if e = 'b' then some (Char.ofNat 8)
  else if e = 'f' then some (Char.ofNat 12)
  else if e = 'n' then some '\n'
  else if e = 'r' then some '\r'
  else if e = 't' then some '\t'
  else none

/-- Decode one `\\uXXXX` escape (input positioned after the `\\u`),
recombining a surrogate pair into one code point; a lone surrogate is
rejected. -/
def decEscU (rest2 : List Char) : Option (Char × List Char) :=
  match rest2 with
  | a :: b :: c2 :: d :: rest3 =>
    (match hex4val a b c2 d with
     | none => none
     | some n =>
       if 55296 ≤ n ∧ n < 56320 then
         match rest3 with
         | s1 :: s2 :: a2 :: b2 :: c3 :: d2 :: rest4 =>
           if s1 = '\\' ∧ s2 = 'u' then
             match hex4val a2 b2 c3 d2 with
             | some m =>
               if 56320 ≤ m ∧ m < 57344 then
                 some (Char.ofNat ((n - 55296) * 1024 + (m - 56320) + 65536), rest4)
               else none
             | none => none
           else none
         | _ => none
       else if 56320 ≤ n ∧ n < 57344 then none
       else some (Char.ofNat n, rest3))
  | _ => none

/-- One step of reading a JSON string literal body: either its closing
quote or one decoded character. -/
inductive StrTok where
  | close : List Char → StrTok
  | chr : Char → List Char → StrTok
deriving Repr, DecidableEq

/-- Read one token of a string literal body: the closing quote, an escape
(`\\x` or `\\uXXXX`), or a literal character; invalid escapes and raw
control characters are rejected. -/
def decStrTok : List Char → Option StrTok
  | [] => none
  | c :: rest =>
    if c = '"' then some (StrTok.close rest)
    else if c = '\\' then
      match rest with
      | [] => none
      | e :: rest2 =>
        if e = 'u' then (decEscU rest2).map (fun p => StrTok.chr p.1 p.2)
        else
          match unescape e with
          | some u => some (StrTok.chr u rest2)
          | none => none
    else if c.toNat < 32 then none
    else some (StrTok.chr c rest)

theorem decEscU_length (rest2 : List Char) (c : Char) (r : List Char)
    (h : decEscU rest2 = some (c, r)) : r.length + 4 ≤ rest2.length := by
  unfold decEscU at h
  split at h
  · rename_i a b c2 d rest3
    split at h
    · exact absurd h (by simp)
    · rename_i n hn
      split at h
      · split at h
        · rename_i s1 s2 a2 b2 c3 d2 rest4
          split at h
          · split at h
            · split at h
              · simp only [Option.some.injEq, Prod.mk.injEq] at h
                obtain ⟨h1, h2⟩ := h
                subst h2
                simp only [List.length_cons]
                omega
              · exact absurd h (by simp)
            · exact absurd h (by simp)
          · exact absurd h (by simp)
        · exact absurd h (by simp)
      · split at h
        · exact absurd h (by simp)
        · simp only [Option.some.injEq, Prod.mk.injEq] at h
          obtain ⟨h1, h2⟩ := h
          subst h2
          simp only [List.length_cons]
          omega
  · exact absurd h (by simp)

theorem decStrTok_length (l : List Char) (c : Char) (r : List Char)
    (h : decStrTok l = some (StrTok.chr c r)) : r.length < l.length := by
  unfold decStrTok at h
  split at h
  · exact absurd h (by simp)
  · rename_i hd rest
    split at h
    · exact absurd h (by simp)
    · split at h
      · split at h
        · exact absurd h (by simp)
        · rename_i e rest2
          split at h
          · cases he : decEscU rest2 with
            | none => rw [he] at h; exact absurd h (by simp)
            | some p =>
              rw [he] at h
              obtain ⟨c2, r2⟩ := p
              simp only [Option.map_some'] at h
              have hlen := decEscU_length rest2 c2 r2 he
              injection h with h
              injection h with h1 h2
              subst h2
              simp only [List.length_cons]
              omega
          · split at h
            · simp only [Option.some.injEq] at h
              injection h with h1 h2
              subst h2
              simp only [List.length_cons]
              omega
            · exact absurd h (by simp)
      · split at h
        · exact absurd h (by simp)
        · simp only [Option.some.injEq] at h
          injection h with h1 h2
          subst h2
          simp only [List.length_cons]
          omega

/-- Decode a JSON string literal body (after the opening quote), returning
the decoded characters and the input after the closing quote. -/
def decStr (l : List Char) : Option (List Char × List Char) :=
  match h : decStrTok l with
  | none => none
  | some (StrTok.close rest) => some ([], rest)
  | some (StrTok.chr c rest) => (decStr rest).map (fun p => (c :: p.1, p.2))
termination_by l.length
decreasing_by exact decStrTok_length l c rest h

/-- Whitespace that `json.loads` skips between tokens. -/
def skipWs (l : List Char) : List Char :=
  l.dropWhile (fun c => c = ' ' || c = '\t' || c = '\n' || c = '\r')

/-- Decode the elements of a non-empty JSON string array, positioned at an
element's opening quote; the fuel bounds the number of elements. -/
def decItemsF : Nat → List Char → Option (List String × List Char)
  | 0, _ => none
  | fuel + 1, l =>
    match l with
    | [] => none
    | c :: rest =>
      if c = '"' then
        (decStr rest).bind (fun p =>
          if (skipWs p.2).head? = some ',' then
            (decItemsF fuel (skipWs (skipWs p.2).tail)).map
              (fun q => (String.mk p.1 :: q.1, q.2))
          else if (skipWs p.2).head? = some ']' then
            some ([String.mk p.1], (skipWs p.2).tail)
          else none)
      else none

/-- `json.loads` of a list-of-strings document: the whole input must be one
array with nothing but whitespace after it. -/
def decTags (l : List Char) : Option (List String) :=
  if (skipWs l).head? = some '[' then
    if (skipWs (skipWs l).tail).head? = some ']' then
      (if skipWs (skipWs (skipWs l).tail).tail = [] then some [] else none)
    else
      (decItemsF l.length (skipWs (skipWs l).tail)).bind (fun p =>
        if skipWs p.2 = [] then some p.1 else none)
  else none

/-! Round-trip of the tag-list codec. -/

theorem hexVal_digitChar : ∀ d, d < 16 → hexVal (Nat.digitChar d) = some d := by
  decide

theorem hex4val_hex4 (n : Nat) (h : n < 65536) :
    hex4val (Nat.digitChar (n / 4096 % 16)) (Nat.digitChar (n / 256 % 16))
      (Nat.digitChar (n / 16 % 16)) (Nat.digitChar (n % 16)) = some n := by
  have ha := hexVal_digitChar (n / 4096 % 16) (by omega)
  have hb := hexVal_digitChar (n / 256 % 16) (by omega)
  have hc := hexVal_digitChar (n / 16 % 16) (by omega)
  have hd := hexVal_digitChar (n % 16) (by omega)
  simp only [hex4val, ha, hb, hc, hd, Option.some.injEq]
  omega

theorem char_toNat_lt (c : Char) : c.toNat < 1114112 := by
  rcases c.valid with h | ⟨h1, h2⟩ <;> simp [Char.toNat] at * <;> omega

theorem char_not_surrogate (c : Char) : ¬ (55296 ≤ c.toNat ∧ c.toNat < 57344) := by
  rcases c.valid with h | ⟨h1, h2⟩ <;> simp [Char.toNat] at * <;> omega

theorem char_ofNat_toNat (c : Char) : Char.ofNat c.toNat = c :=
  Char.ofNat_toNat c

/-- One-step unfolding of `decEscU` on a four-character prefix. -/
theorem decEscU_cons (a b c2 d : Char) (rest3 : List Char) :
    decEscU (a :: b :: c2 :: d :: rest3)
      = (match hex4val a b c2 d with
         | none => none
         | some n =>
           if 55296 ≤ n ∧ n < 56320 then
             match rest3 with
             | s1 :: s2 :: a2 :: b2 :: c3 :: d2 :: rest4 =>
               if s1 = '\\' ∧ s2 = 'u' then
                 match hex4val a2 b2 c3 d2 with
                 | some m =>
                   if 56320 ≤ m ∧ m < 57344 then
                     some (Char.ofNat ((n - 55296) * 1024 + (m - 56320) + 65536), rest4)
                   else none
                 | none => none
               else none
             | _ => none
           else if 56320 ≤ n ∧ n < 57344 then none
           else some (Char.ofNat n, rest3)) := rfl

theorem decEscU_hex (n : Nat) (rest : List Char) (hlo : n < 65536)
    (hns : ¬ (55296 ≤ n ∧ n < 57344)) :
    decEscU (hex4 n ++ rest) = some (Char.ofNat n, rest) := by
  have hval := hex4val_hex4 n hlo
  simp only [hex4, List.cons_append, List.nil_append]
  rw [decEscU_cons]
  simp only [hval]
  rw [if_neg (by omega), if_neg (by omega)]

theorem decEscU_surrogate (c : Char) (rest : List Char) (hhi : 65536 ≤ c.toNat) :
    decEscU (hex4 (55296 + (c.toNat - 65536) / 1024)
        ++ ('\\' :: 'u' :: hex4 (56320 + (c.toNat - 65536) % 1024)) ++ rest)
      = some (c, rest) := by
  have hlt := char_toNat_lt c
  have hval1 := hex4val_hex4 (55296 + (c.toNat - 65536) / 1024) (by omega)
  have hval2 := hex4val_hex4 (56320 + (c.toNat - 65536) % 1024) (by omega)
  simp only [hex4, List.cons_append, List.nil_append, List.append_assoc]
  rw [decEscU_cons]
  simp only [hval1]
  rw [if_pos (by constructor <;> omega)]
  simp only [hval2]
  rw [if_pos (by simp)]
  rw [if_pos (by constructor <;> omega)]
  rw [show 55296 + (c.toNat - 65536) / 1024 - 55296 = (c.toNat - 65536) / 1024 by omega,
    show 56320 + (c.toNat - 65536) % 1024 - 56320 = (c.toNat - 65536) % 1024 by omega]
  rw [show (c.toNat - 65536) / 1024 * 1024 + (c.toNat - 65536) % 1024 + 65536 = c.toNat
    by omega]
  rw [char_ofNat_toNat]

/-- One-step unfolding of `decStrTok` on a character that is neither a
quote nor a backslash nor a control character. -/
theorem decStrTok_plain (c : Char) (rest : List Char) (hq : ¬ c = '"')
    (hbs : ¬ c = '\\') (h32 : ¬ c.toNat < 32) :
    decStrTok (c :: rest) = some (StrTok.chr c rest) := by
  have step : decStrTok (c :: rest)
      = (if c = '"' then some (StrTok.close rest)
         else if c = '\\' then
           match rest with
           | [] => none
           | e :: rest2 =>
             if e = 'u' then (decEscU rest2).map (fun p => StrTok.chr p.1 p.2)
             else
               match unescape e with
               | some u => some (StrTok.chr u rest2)
               | none => none
         else if c.toNat < 32 then none
         else some (StrTok.chr c rest)) := rfl
  rw [step, if_neg hq, if_neg hbs, if_neg h32]

/-- One-step unfolding of `decStrTok` on a `\\uXXXX` escape. -/
theorem decStrTok_backslash_u (rest2 : List Char) :
    decStrTok ('\\' :: 'u' :: rest2)
      = (decEscU rest2).map (fun p => StrTok.chr p.1 p.2) := rfl

theorem decStrTok_encChar (c : Char) (rest : List Char) :
    decStrTok (encChar c ++ rest) = some (StrTok.chr c rest) := by
  by_cases hq : c = '"'
  · subst hq; rfl
  by_cases hbs : c = '\\'
  · subst hbs; rfl
  by_cases hn : c = '\n'
  · subst hn; rfl
  by_cases ht : c = '\t'
  · subst ht; rfl
  by_cases hr : c = '\r'
  · subst hr; rfl
  by_cases h8 : c.toNat = 8
  · have henc : encChar c = ['\\', 'b'] := by
      unfold encChar
      rw [if_neg hq, if_neg hbs, if_neg hn, if_neg ht, if_neg hr, if_pos h8]
    rw [henc]
    have step : decStrTok (['\\', 'b'] ++ rest)
        = some (StrTok.chr (Char.ofNat 8) rest) := rfl
    rw [step, show Char.ofNat 8 = c from by rw [← h8, char_ofNat_toNat]]
  by_cases h12 : c.toNat = 12
  · have henc : encChar c = ['\\', 'f'] := by
      unfold encChar
      rw [if_neg hq, if_neg hbs, if_neg hn, if_neg ht, if_neg hr, if_neg h8,
        if_pos h12]
    rw [henc]
    have step : decStrTok (['\\', 'f'] ++ rest)
        = some (StrTok.chr (Char.ofNat 12) rest) := rfl
    rw [step, show Char.ofNat 12 = c from by rw [← h12, char_ofNat_toNat]]
  by_cases h32 : c.toNat < 32
  · have henc : encChar c = escU c.toNat := by
      unfold encChar
      rw [if_neg hq, if_neg hbs, if_neg hn, if_neg ht, if_neg hr, if_neg h8,
        if_neg h12, if_pos h32]
    rw [henc]
    show decStrTok ('\\' :: 'u' :: (hex4 c.toNat ++ rest)) = _
    rw [decStrTok_backslash_u, decEscU_hex c.toNat rest (by omega) (by omega),
      Option.map_some', char_ofNat_toNat]
  by_cases h128 : c.toNat < 128
  · have henc : encChar c = [c] := by
      unfold encChar
      rw [if_neg hq, if_neg hbs, if_neg hn, if_neg ht, if_neg hr, if_neg h8,
        if_neg h12, if_neg h32, if_pos h128]
    rw [henc]
    show decStrTok (c :: rest) = _
    exact decStrTok_plain c rest hq hbs h32
  by_cases h64k : c.toNat < 65536
  · have henc : encChar c = escU c.toNat := by
      unfold encChar
      rw [if_neg hq, if_neg hbs, if_neg hn, if_neg ht, if_neg hr, if_neg h8,
        if_neg h12, if_neg h32, if_neg h128, if_pos h64k]
    rw [henc]
    show decStrTok ('\\' :: 'u' :: (hex4 c.toNat ++ rest)) = _
    rw [decStrTok_backslash_u,
      decEscU_hex c.toNat rest (by omega) (char_not_surrogate c),
      Option.map_some', char_ofNat_toNat]
  · have henc : encChar c = escU (55296 + (c.toNat - 65536) / 1024)
        ++ escU (56320 + (c.toNat - 65536) % 1024) := by
      unfold encChar
      rw [if_neg hq, if_neg hbs, if_neg hn, if_neg ht, if_neg hr, if_neg h8,
        if_neg h12, if_neg h32, if_neg h128, if_neg h64k]
    rw [henc]
    show decStrTok ('\\' :: 'u' :: (hex4 (55296 + (c.toNat - 65536) / 1024)
        ++ ('\\' :: 'u' :: hex4 (56320 + (c.toNat - 65536) % 1024)) ++ rest)) = _
    rw [decStrTok_backslash_u, decEscU_surrogate c rest (by omega), Option.map_some']

theorem decStr_close (l r : List Char) (h : decStrTok l = some (StrTok.close r)) :
    decStr l = some ([], r) := by
  rw [decStr]
  split
  · rename_i heq
    rw [h] at heq
    exact absurd heq (by simp)
  · rename_i r2 heq
    rw [h] at heq
    injection heq with heq
    injection heq with h1
    subst h1
    rfl
  · rename_i c2 r2 heq
    rw [h] at heq
    simp at heq

theorem decStr_chr (l : List Char) (c : Char) (r : List Char)
    (h : decStrTok l = some (StrTok.chr c r)) :
    decStr l = (decStr r).map (fun p => (c :: p.1, p.2)) := by
  rw [decStr]
  split
  · rename_i heq
    rw [h] at heq
    exact absurd heq (by simp)
  · rename_i r2 heq
    rw [h] at heq
    simp at heq
  · rename_i c2 r2 heq
    rw [h] at heq
    injection heq with heq
    injection heq with h1 h2
    subst h1
    subst h2
    rfl

theorem decStr_enc (cs : List Char) (rest : List Char) :
    decStr (cs.flatMap encChar ++ '"' :: rest) = some (cs, rest) := by
  induction cs with
  | nil =>
    rw [List.flatMap_nil, List.nil_append]
    exact decStr_close _ _ rfl
  | cons c cs ih =>
    rw [List.flatMap_cons, List.append_assoc]
    rw [decStr_chr _ c _ (decStrTok_encChar c _)]
    rw [ih]
    rfl

theorem skipWs_nonws (c : Char) (l : List Char)
    (h : (c = ' ' || c = '\t' || c = '\n' || c = '\r') = false) :
    skipWs (c :: l) = c :: l := by
  simp [skipWs, List.dropWhile_cons, h]

theorem skipWs_space (l : List Char) : skipWs (' ' :: l) = skipWs l := by
  simp [skipWs, List.dropWhile_cons]

/-- One-step unfolding of `decItemsF` at an opening quote. -/
theorem decItemsF_quote (fuel : Nat) (rest : List Char) :
    decItemsF (fuel + 1) ('"' :: rest)
      = (decStr rest).bind (fun p =>
          if (skipWs p.2).head? = some ',' then
            (decItemsF fuel (skipWs (skipWs p.2).tail)).map
              (fun q => (String.mk p.1 :: q.1, q.2))
          else if (skipWs p.2).head? = some ']' then
            some ([String.mk p.1], (skipWs p.2).tail)
          else none) := rfl

theorem decItemsF_enc (ts : List String) :
    ∀ (t : String) (fuel : Nat), ts.length < fuel →
      decItemsF fuel (encString t ++ encItemsRest ts) = some (t :: ts, []) := by
  induction ts with
  | nil =>
    intro t fuel hf
    obtain ⟨f, rfl⟩ : ∃ f, fuel = f + 1 := ⟨fuel - 1, by omega⟩
    simp only [encString, encItemsRest, List.cons_append, List.append_assoc,
      List.singleton_append, List.nil_append]
    rw [decItemsF_quote, decStr_enc, Option.some_bind]
    simp only [List.nil_append]
    rw [skipWs_nonws (']') [] (by decide)]
    simp only [List.head?_cons, List.tail_cons]
    rw [if_neg (by decide), if_pos trivial]
    rfl
  | cons u ts ih =>
    intro t fuel hf
    obtain ⟨f, rfl⟩ : ∃ f, fuel = f + 1 := ⟨fuel - 1, by omega⟩
    simp only [encString, encItemsRest, List.cons_append, List.append_assoc,
      List.singleton_append, List.nil_append]
    rw [decItemsF_quote, decStr_enc, Option.some_bind]
    simp only [List.nil_append]
    rw [skipWs_nonws (',') _ (by decide)]
    simp only [List.head?_cons, List.tail_cons]
    rw [if_pos trivial, skipWs_space]
    have hu : skipWs (encString u ++ encItemsRest ts)
        = encString u ++ encItemsRest ts := by
      simp only [encString, List.cons_append]
      exact skipWs_nonws ('"') _ (by decide)
    have ihu := ih u f (by simp only [List.length_cons] at hf; omega)
    simp only [encString, List.cons_append, List.append_assoc,
      List.singleton_append, List.nil_append] at hu ihu ⊢
    rw [hu, ihu]
    rfl

theorem decTags_encTags (ts : List String) : decTags (encTags ts) = some ts := by
  cases ts with
  | nil => decide
  | cons t ts =>
    have hlen : ts.length < ('[' :: (encString t ++ encItemsRest ts)).length := by
      have h1 : 2 ≤ (encString t).length := by
        simp [encString, List.length_cons, List.length_append]
      have h2 : ∀ us : List String, us.length ≤ (encItemsRest us).length := by
        intro us
        induction us with
        | nil => simp [encItemsRest]
        | cons v vs ihv =>
          simp only [encItemsRest, List.length_cons, List.length_append]
          have : 2 ≤ (encString v).length := by
            simp [encString, List.length_cons, List.length_append]
          omega
      have := h2 ts
      simp only [List.length_cons, List.length_append]
      omega
    show decTags ('[' :: (encString t ++ encItemsRest ts)) = some (t :: ts)
    unfold decTags
    rw [skipWs_nonws ('[') _ (by decide)]
    simp only [List.head?_cons, List.tail_cons]
    rw [if_pos trivial]
    have hq : skipWs (encString t ++ encItemsRest ts)
        = encString t ++ encItemsRest ts := by
      simp only [encString, List.cons_append]
      exact skipWs_nonws ('"') _ (by decide)
    simp only [hq]
    have hhead : (encString t ++ encItemsRest ts).head? = some '"' := by
      simp [encString, List.cons_append]
    simp only [hhead]
    rw [if_neg (by decide)]
    rw [decItemsF_enc ts t _ hlen, Option.some_bind]
    rfl

/-! ## Ingestion store (database.py, `DatabaseManager`)

The SQLite connection is modelled as a pair of stores: `committed` (what a
`commit()` has published) and `working` (what statements on this
connection have produced, visible to reads on the same connection).  The
Python `sqlite3` module opens a deferred transaction implicitly at the
first write and publishes it only at `conn.commit()`; an exception leaves
the mutations pending on the connection — `insert_course` has no rollback.
A course/lesson JSON record is a structure whose `Option` fields are the
dict keys the code reads with `.get` (or whose absence makes a direct
`record[key]` access raise `KeyError`). -/

/-- One serialized lesson dict.  `idx`, `title` and `video_id` are accessed
directly (`lesson['idx']` …) and raise `KeyError` when absent; the rest
default via `.get`. -/
structure LessonRecord where
  idx : Option Nat
  title : Option String
  video_id : Option String
  duration_min : Option Nat
  description : Option String
  thumbnail : Option String
  published_at : Option String
  view_count : Option Nat
  like_count : Option Nat
deriving Repr, DecidableEq

/-- The `author` sub-dict (all fields via `.get`). -/
structure AuthorRecord where
  name : Option String
  channel_id : Option String
  homepage : Option String
  subscribers : Option Nat
deriving Repr, DecidableEq

/-- One serialized course dict.  `youtube_id`, `url`, `category`, `title`
and `author` are accessed directly (their absence raises before the first
INSERT executes, mutating nothing); the rest default via `.get`. -/
structure CourseRecord where
  youtube_id : String
  url : String
  category : String
  subcategory : Option String
  title : String
  description : Option String
  author : AuthorRecord
  duration_min : Option Nat
  lesson_count : Option Nat
  language : Option String
  language_name : Option String
  thumbnail : Option String
  published_at : Option String
  last_updated : Option String
  verified_free : Option Bool
  scraped_at : Option String
  tags : Option (List String)
  lessons : Option (List LessonRecord)
deriving Repr, DecidableEq

/-- One row of the `courses` table.  `tags` holds the serialized JSON
text. -/
structure CourseRow where
  id : Nat
  youtube_id : String
  url : String
  category : String
  subcategory : String
  title : String
  description : String
  author_name : String
  author_channel_id : String
  author_homepage : String
  author_subscribers : Nat
  duration_min : Nat
  lesson_count : Nat
  language : String
  language_name : String
  thumbnail : String
  published_at : String
  last_updated : String
  verified_free : Nat
  scraped_at : String
  tags : List Char
  created_at : String
deriving Repr, DecidableEq

/-- One row of the `lessons` table. -/
structure LessonRow where
  id : Nat
  course_id : Nat
  idx : Nat
  title : String
  video_id : String
  duration_min : Nat
  description : String
  thumbnail : String
  published_at : String
  view_count : Nat
  like_count : Nat
deriving Repr, DecidableEq

/-- The two tables plus their AUTOINCREMENT counters. -/
structure Store where
  courses : List CourseRow
  lessons : List LessonRow
  nextCourseId : Nat
  nextLessonId : Nat
deriving Repr, DecidableEq

/-- A connection: the last committed state and the working state (pending
statements included; reads on the same connection see `working`). -/
structure Conn where
  committed : Store
  working : Store
deriving Repr, DecidableEq

def emptyStore : Store :=
  { courses := [], lessons := [], nextCourseId := 1, nextLessonId := 1 }

def emptyConn : Conn :=
  { committed := emptyStore, working := emptyStore }

/-- A Python exception escaping `insert_course` (a `KeyError` on a
malformed lesson). -/
inductive DbErr where
  | keyError
deriving Repr, DecidableEq

/-- The `courses` INSERT of `insert_course` (database.py lines 121-149):
the new row built from the record, defaults as in the source;
`datetime.utcnow()` enters as `now`. -/
def courseRowOf (s : Store) (now : String) (c : CourseRecord) : CourseRow :=
  { id := s.nextCourseId
    youtube_id := c.youtube_id
    url := c.url
    category := c.category
    subcategory := c.subcategory.getD c.category
    title := c.title
    description := c.description.getD ""
    author_name := c.author.name.getD ("Unknown")
    author_channel_id := c.author.channel_id.getD ""
    author_homepage := c.author.homepage.getD ""
    author_subscribers := c.author.subscribers.getD 0
    duration_min := c.duration_min.getD 0
    lesson_count := c.lesson_count.getD 0
    language := c.language.getD ("en")
    language_name := c.language_name.getD ("English")
    thumbnail := c.thumbnail.getD ""
    published_at := c.published_at.getD now
    last_updated := c.last_updated.getD now
    verified_free := if c.verified_free.getD true then 1 else 0
    scraped_at := c.scraped_at.getD now
    tags := encTags (c.tags.getD [])
    created_at := now }

/-- The lesson INSERT loop (database.py lines 155-172).  A lesson whose
`idx`, `title` or `video_id` key is missing raises `KeyError` before its
INSERT executes: the rows inserted so far stay in the working state and
the flag comes back `false`. -/
def insertLessonRows (now : String) (cid : Nat) :
    Store → List LessonRecord → Store × Bool
  | s, [] => (s, true)
  | s, l :: rest =>
    match l.idx, l.title, l.video_id with
    | some idx, some ltitle, some vid =>
        insertLessonRows now cid
          { s with
            lessons := s.lessons ++
              [{ id := s.nextLessonId
                 course_id := cid
                 idx := idx
                 title := ltitle
                 video_id := vid
                 duration_min := l.duration_min.getD 0
                 description := l.description.getD ""
                 thumbnail := l.thumbnail.getD ""
                 published_at := l.published_at.getD now
                 view_count := l.view_count.getD 0
                 like_count := l.like_count.getD 0 }]
            nextLessonId := s.nextLessonId + 1 }
          rest
    | _, _, _ => (s, false)

/-- The course-row INSERT: append the row and advance the AUTOINCREMENT
counter. -/
def addCourseRow (s : Store) (row : CourseRow) : Store :=
  { s with courses := s.courses ++ [row], nextCourseId := s.nextCourseId + 1 }

/-- `if 'lessons' in course and course['lessons']:` — the lesson loop runs
only for a present, non-empty list. -/
def insertAllLessons (now : String) (cid : Nat) (s : Store)
    (olessons : Option (List LessonRecord)) : Store × Bool :=
  match olessons with
  | some (l :: ls) => insertLessonRows now cid s (l :: ls)
  | _ => (s, true)

/-- `self.conn.commit()` on success; on a `KeyError` the exception
propagates and the mutated working state stays pending (no rollback). -/
def commitIfOk (db : Conn) (res : Store × Bool) : Conn × Except DbErr Bool :=
  if res.2 then ({ committed := res.1, working := res.1 }, Except.ok true)
  else ({ db with working := res.1 }, Except.error DbErr.keyError)

/-- `DatabaseManager.insert_course` (database.py lines 111-175).  Checks
for an existing row with the same `youtube_id` (on this connection, so
pending rows count), inserts the course row (`cursor.lastrowid` is the new
row's id), then the lesson rows, then commits.  A `KeyError` mid-way
leaves the partial rows pending in the working state without commit or
rollback. -/
def insert_course (now : String) (db : Conn) (c : CourseRecord) :
    Conn × Except DbErr Bool :=
  if db.working.courses.any (fun r => r.youtube_id = c.youtube_id) then
    (db, Except.ok false)
  else
    commitIfOk db
      (insertAllLessons now db.working.nextCourseId
        (addCourseRow db.working (courseRowOf db.working now c)) c.lessons)

/-- The per-line loop of `import_from_jsonl` with its running counters; a
`none` record stands for a line `json.loads` rejects.  Any exception is
caught, counted as skipped, and the loop continues. -/
def importLoop (now : String) :
    Conn → Nat → Nat → List (Option CourseRecord) → Conn × Nat × Nat
  | db, imported, skipped, [] => (db, imported, skipped)
  | db, imported, skipped, none :: rest =>
      importLoop now db imported (skipped + 1) rest
  | db, imported, skipped, some c :: rest =>
      match insert_course now db c with
      | (db2, Except.ok true) => importLoop now db2 (imported + 1) skipped rest
      | (db2, Except.ok false) => importLoop now db2 imported (skipped + 1) rest
      | (db2, Except.error _) => importLoop now db2 imported (skipped + 1) rest

/-- `DatabaseManager.import_from_jsonl` (database.py lines 89-109). -/
def import_from_jsonl (now : String) (db : Conn)
    (records : List (Option CourseRecord)) : Conn × Nat × Nat :=
  importLoop now db 0 0 records

/-- Stable insertion into a sorted list (model of the SQL ORDER BY). -/
def insertSorted {α : Type} (le : α → α → Bool) (x : α) : List α → List α
  | [] => [x]
  | y :: ys => if le x y then x :: y :: ys else y :: insertSorted le x ys

/-- Insertion sort (model of the SQL ORDER BY; only its length and
membership matter to the claims). -/
def sortList {α : Type} (le : α → α → Bool) : List α → List α
  | [] => []
  | x :: xs => insertSorted le x (sortList le xs)

/-- A course as returned by the read paths: the row, its lesson rows
(`ORDER BY idx`), and the decoded tag list. -/
structure CourseOut where
  row : CourseRow
  lessons : List LessonRow
  tags : List String
deriving Repr, DecidableEq

/-- `json.loads(course['tags']) if course['tags'] else []`, with the
`try/except` falling back to `[]`. -/
def decodeRowTags (tags : List Char) : List String :=
  if tags = [] then [] else (decTags tags).getD []

/-- `DatabaseManager.get_course_by_id` (database.py lines 247-267): `None`
when no row matches, else the row with its lessons (`ORDER BY idx`) and
decoded tags. -/
def get_course_by_id (db : Conn) (cid : Nat) : Option CourseOut :=
  (db.working.courses.find? (fun r => r.id = cid)).map (fun row =>
    { row := row
      lessons := sortList (fun a b => a.idx ≤ b.idx)
        (db.working.lessons.filter (fun l => l.course_id = cid))
      tags := decodeRowTags row.tags })

/-- `DatabaseManager.get_course_by_youtube_id` (database.py lines
269-289). -/
def get_course_by_youtube_id (db : Conn) (yid : String) : Option CourseOut :=
  (db.working.courses.find? (fun r => r.youtube_id = yid)).map (fun row =>
    { row := row
      lessons := sortList (fun a b => a.idx ≤ b.idx)
        (db.working.lessons.filter (fun l => l.course_id = row.id))
      tags := decodeRowTags row.tags })

/-! C2: transactional atomicity of `insert_course`.

`insert_course` opens no explicit transaction and has no rollback: when a
lesson dict is malformed (`lesson['title']` raises `KeyError` after the
course row's INSERT executed), the partial rows stay pending on the
connection.  `import_from_jsonl` catches the exception and continues; the
next successful record's `conn.commit()` then publishes the leftover
partial course.  The batch below makes that observable: after importing
[course A with one well-formed and one malformed lesson, course B], the
committed store contains course A's row with only one of its two lesson
rows. -/

/-- A well-formed lesson dict. -/
def goodLessonRec (i : Nat) : LessonRecord :=
  { idx := some i, title := some ("L"), video_id := some ("v"),
    duration_min := none, description := none, thumbnail := none,
    published_at := none, view_count := none, like_count := none }

/-- A malformed lesson dict: its `title` key is missing, so
`lesson['title']` raises `KeyError`. -/
def badLessonRec : LessonRecord :=
  { idx := some 2, title := none, video_id := some ("v"),
    duration_min := none, description := none, thumbnail := none,
    published_at := none, view_count := none, like_count := none }

/-- Course A: valid course fields, two lessons of which the second is
malformed. -/
def courseRecA : CourseRecord :=
  { youtube_id := "A", url := "uA", category := "Cat", subcategory := none,
    title := "TA", description := none,
    author := { name := none, channel_id := none, homepage := none, subscribers := none },
    duration_min := none, lesson_count := some 2, language := none,
    language_name := none, thumbnail := none, published_at := none,
    last_updated := none, verified_free := none, scraped_at := none,
    tags := none, lessons := some [goodLessonRec 1, badLessonRec] }

/-- Course B: a well-formed record with a different external id. -/
def courseRecB : CourseRecord :=
  { youtube_id := "B", url := "uB", category := "Cat", subcategory := none,
    title := "TB", description := none,
    author := { name := none, channel_id := none, homepage := none, subscribers := none },
    duration_min := none, lesson_count := some 1, language := none,
    language_name := none, thumbnail := none, published_at := none,
    last_updated := none, verified_free := none, scraped_at := none,
    tags := none, lessons := some [goodLessonRec 1] }

/-- C2 fails on the code (code bug: missing rollback): importing
[A (one malformed lesson), B] into an empty store leaves the COMMITTED
store containing course A's row together with only 1 of its 2 lesson
rows — a course visible with a partially present lesson set — while the
batch importer reports A as skipped (imported 1, skipped 1). -/
theorem C2_insert_atomicity_bug :
    ((import_from_jsonl ("t0") emptyConn [some courseRecA, some courseRecB]).1.committed.courses.countP
        (fun r => r.youtube_id = "A") = 1)
    ∧ ((import_from_jsonl ("t0") emptyConn [some courseRecA, some courseRecB]).1.committed.lessons.countP
        (fun l => l.course_id = 1) = 1)
    ∧ ((import_from_jsonl ("t0") emptyConn [some courseRecA, some courseRecB]).1.committed.courses.find?
        (fun r => r.youtube_id = "A")).map (fun r => r.id) = some 1
    ∧ (courseRecA.lessons.getD []).length = 2
    ∧ (import_from_jsonl ("t0") emptyConn [some courseRecA, some courseRecB]).2 = (1, 1) := by
  refine ⟨?_, ?_, ?_, ?_, ?_⟩ <;> decide

/-! C3: first-write-wins duplicate semantics of `insert_course`. -/

/-- A lesson dict carrying every directly-accessed key. -/
def wfLesson (l : LessonRecord) : Prop :=
  l.idx.isSome = true ∧ l.title.isSome = true ∧ l.video_id.isSome = true

/-- A course record whose lessons all carry their required keys (so the
insert raises nothing). -/
def wfCourseRecord (c : CourseRecord) : Prop :=
  ∀ l ∈ c.lessons.getD [], wfLesson l

theorem insertLessonRows_wf (now : String) (cid : Nat) :
    ∀ (ls : List LessonRecord) (s : Store), (∀ l ∈ ls, wfLesson l) →
      (insertLessonRows now cid s ls).2 = true
      ∧ (insertLessonRows now cid s ls).1.courses = s.courses
      ∧ (insertLessonRows now cid s ls).1.lessons.length
          = s.lessons.length + ls.length
      ∧ (insertLessonRows now cid s ls).1.lessons.countP (fun r => r.course_id = cid)
          = s.lessons.countP (fun r => r.course_id = cid) + ls.length := by
  intro ls
  induction ls with
  | nil => intro s h; exact ⟨rfl, rfl, rfl, by simp [insertLessonRows]⟩
  | cons l rest ih =>
    intro s h
    obtain ⟨hidx, htitle, hvid⟩ := h l (by simp)
    obtain ⟨i, hi⟩ := Option.isSome_iff_exists.1 hidx
    obtain ⟨t, ht⟩ := Option.isSome_iff_exists.1 htitle
    obtain ⟨v, hv⟩ := Option.isSome_iff_exists.1 hvid
    have step : ∀ s2 : Store, insertLessonRows now cid s2 (l :: rest)
        = insertLessonRows now cid
            { s2 with
              lessons := s2.lessons ++
                [{ id := s2.nextLessonId
                   course_id := cid
                   idx := i
                   title := t
                   video_id := v
                   duration_min := l.duration_min.getD 0
                   description := l.description.getD ""
                   thumbnail := l.thumbnail.getD ""
                   published_at := l.published_at.getD now
                   view_count := l.view_count.getD 0
                   like_count := l.like_count.getD 0 }]
              nextLessonId := s2.nextLessonId + 1 }
            rest := by
      intro s2
      rw [insertLessonRows, hi, ht, hv]
    rw [step s]
    obtain ⟨h1, h2, h3, h4⟩ := ih _ (fun x hx => h x (by simp [hx]))
    refine ⟨h1, by simpa using h2, ?_, ?_⟩
    · rw [h3]
      simp only [List.length_append, List.length_cons, List.length_nil]
      omega
    · rw [h4]
      rw [List.countP_append]
      simp only [List.countP_cons, List.countP_nil, List.length_cons]
      simp
      omega

theorem insertAllLessons_wf (now : String) (cid : Nat) (s : Store)
    (ol : Option (List LessonRecord)) (h : ∀ l ∈ ol.getD [], wfLesson l) :
    (insertAllLessons now cid s ol).2 = true
    ∧ (insertAllLessons now cid s ol).1.courses = s.courses
    ∧ (insertAllLessons now cid s ol).1.lessons.length
        = s.lessons.length + (ol.getD []).length := by
  cases ol with
  | none => exact ⟨rfl, rfl, rfl⟩
  | some ls =>
    cases ls with
    | nil => exact ⟨rfl, rfl, rfl⟩
    | cons l rest =>
      obtain ⟨h1, h2, h3, h4⟩ :=
        insertLessonRows_wf now cid (l :: rest) s (by simpa using h)
      exact ⟨h1, h2, h3⟩

theorem insert_course_success (now : String) (db : Conn) (c : CourseRecord)
    (hwf : wfCourseRecord c)
    (h : db.working.courses.any (fun r => r.youtube_id = c.youtube_id) = false) :
    ∃ s2 : Store,
      insert_course now db c = ({ committed := s2, working := s2 }, Except.ok true)
      ∧ s2.courses = db.working.courses ++ [courseRowOf db.working now c]
      ∧ s2.lessons.length = db.working.lessons.length + (c.lessons.getD []).length := by
  have hstep : insert_course now db c
      = commitIfOk db
          (insertAllLessons now db.working.nextCourseId
            (addCourseRow db.working (courseRowOf db.working now c)) c.lessons) := by
    unfold insert_course
    rw [if_neg (by simp [h])]
  obtain ⟨h1, h2, h3⟩ := insertAllLessons_wf now db.working.nextCourseId
    (addCourseRow db.working (courseRowOf db.working now c)) c.lessons hwf
  cases hr : insertAllLessons now db.working.nextCourseId
      (addCourseRow db.working (courseRowOf db.working now c)) c.lessons with
  | mk s2 b =>
    rw [hr] at h1 h2 h3 hstep
    simp only at h1
    subst h1
    refine ⟨s2, ?_, ?_, ?_⟩
    · rw [hstep]; rfl
    · simpa [addCourseRow] using h2
    · simpa [addCourseRow] using h3

/-- C3: for every connection state and well-formed course record, if a row
with the same `youtube_id` already exists the insert returns `false` and
leaves the connection completely unchanged; otherwise it returns `true`,
adds exactly one course row with that id plus all its lesson rows, and
commits (committed = working).  Consequently inserting the same id twice
yields one `true` then one `false`, and a store that had no row with that
id ends up with exactly one. -/
theorem C3_insert_duplicate_semantics :
    (∀ (now : String) (db : Conn) (c : CourseRecord),
        db.working.courses.any (fun r => r.youtube_id = c.youtube_id) = true →
        insert_course now db c = (db, Except.ok false))
    ∧ (∀ (now : String) (db : Conn) (c : CourseRecord),
        wfCourseRecord c →
        db.working.courses.any (fun r => r.youtube_id = c.youtube_id) = false →
        (insert_course now db c).2 = Except.ok true
        ∧ (insert_course now db c).1.working.courses.countP
              (fun r => r.youtube_id = c.youtube_id)
            = db.working.courses.countP (fun r => r.youtube_id = c.youtube_id) + 1
        ∧ (insert_course now db c).1.working.lessons.length
            = db.working.lessons.length + (c.lessons.getD []).length
        ∧ (insert_course now db c).1.committed = (insert_course now db c).1.working)
    ∧ (∀ (now : String) (db : Conn) (c : CourseRecord),
        wfCourseRecord c →
        db.working.courses.any (fun r => r.youtube_id = c.youtube_id) = false →
        insert_course now (insert_course now db c).1 c
          = ((insert_course now db c).1, Except.ok false)
        ∧ (db.working.courses.countP (fun r => r.youtube_id = c.youtube_id) = 0 →
            (insert_course now db c).1.working.courses.countP
              (fun r => r.youtube_id = c.youtube_id) = 1)) := by
  have hdup : ∀ (now : String) (db : Conn) (c : CourseRecord),
      db.working.courses.any (fun r => r.youtube_id = c.youtube_id) = true →
      insert_course now db c = (db, Except.ok false) := by
    intro now db c h
    unfold insert_course
    rw [if_pos h]
  have hins : ∀ (now : String) (db : Conn) (c : CourseRecord),
      wfCourseRecord c →
      db.working.courses.any (fun r => r.youtube_id = c.youtube_id) = false →
      (insert_course now db c).2 = Except.ok true
      ∧ (insert_course now db c).1.working.courses.countP
            (fun r => r.youtube_id = c.youtube_id)
          = db.working.courses.countP (fun r => r.youtube_id = c.youtube_id) + 1
      ∧ (insert_course now db c).1.working.lessons.length
          = db.working.lessons.length + (c.lessons.getD []).length
      ∧ (insert_course now db c).1.committed = (insert_course now db c).1.working := by
    intro now db c hwf h
    obtain ⟨s2, heq, hc, hl⟩ := insert_course_success now db c hwf h
    rw [heq]
    refine ⟨rfl, ?_, ?_, rfl⟩
    · show s2.courses.countP (fun r => r.youtube_id = c.youtube_id) = _
      rw [hc]
      simp only [List.countP_append, List.countP_cons, List.countP_nil]
      have hy : (courseRowOf db.working now c).youtube_id = c.youtube_id := rfl
      simp [hy]
    · show s2.lessons.length = _
      exact hl
  refine ⟨hdup, hins, fun now db c hwf h => ?_⟩
  obtain ⟨h1, h2, h3, h4⟩ := hins now db c hwf h
  have hany : (insert_course now db c).1.working.courses.any
      (fun r => r.youtube_id = c.youtube_id) = true := by
    have : 0 < (insert_course now db c).1.working.courses.countP
        (fun r => r.youtube_id = c.youtube_id) := by omega
    rw [List.countP_pos] at this
    obtain ⟨x, hx, hpx⟩ := this
    exact List.any_eq_true.2 ⟨x, hx, hpx⟩
  exact ⟨hdup now _ c hany, fun h0 => by omega⟩

/-- Witness for C3 at a concrete input: inserting course B into an empty
store returns true; inserting it again returns false and leaves the store
unchanged; the store then holds exactly one row with that id. -/
theorem C3_insert_duplicate_semantics_witness :
    (insert_course ("t0") emptyConn courseRecB).2 = Except.ok true
    ∧ insert_course ("t0") (insert_course ("t0") emptyConn courseRecB).1 courseRecB
        = ((insert_course ("t0") emptyConn courseRecB).1, Except.ok false)
    ∧ (insert_course ("t0") emptyConn courseRecB).1.working.courses.countP
        (fun r => r.youtube_id = courseRecB.youtube_id) = 1 :=
  ⟨(C3_insert_duplicate_semantics.2.1 ("t0") emptyConn courseRecB
      (by unfold wfCourseRecord wfLesson; decide) rfl).1,
   (C3_insert_duplicate_semantics.2.2 ("t0") emptyConn courseRecB
      (by unfold wfCourseRecord wfLesson; decide) rfl).1,
   (C3_insert_duplicate_semantics.2.2 ("t0") emptyConn courseRecB
      (by unfold wfCourseRecord wfLesson; decide) rfl).2 (by decide)⟩

/-! C9: the tag list round-trips through the store. -/

theorem encTags_ne_nil (ts : List String) : encTags ts ≠ [] := by
  cases ts <;> simp [encTags]

theorem decodeRowTags_encTags (ts : List String) :
    decodeRowTags (encTags ts) = ts := by
  unfold decodeRowTags
  rw [if_neg (encTags_ne_nil ts), decTags_encTags]
  rfl

/-- A course record carrying a tags list. -/
def courseRecTagged : CourseRecord :=
  { courseRecB with
    youtube_id := "C"
    tags := some [("beginner"), ("crash course")] }

/-- C9: for every course record whose tags field is a list of strings (or
absent), inserting the course and fetching it back by database id or by
external id yields a tags list equal to the original (the JSON encode at
insert and decode at read cancel); a record with no tags field reads back
as the empty list. -/
theorem C9_tags_roundtrip :
    ∀ (now : String) (db : Conn) (c : CourseRecord),
      wfCourseRecord c →
      db.working.courses.any (fun r => r.youtube_id = c.youtube_id) = false →
      (∀ r ∈ db.working.courses, r.id ≠ db.working.nextCourseId) →
      ((get_course_by_id (insert_course now db c).1 db.working.nextCourseId).map
          (fun co => co.tags) = some (c.tags.getD []))
      ∧ ((get_course_by_youtube_id (insert_course now db c).1 c.youtube_id).map
          (fun co => co.tags) = some (c.tags.getD []))
      ∧ (c.tags = none →
          (get_course_by_id (insert_course now db c).1 db.working.nextCourseId).map
            (fun co => co.tags) = some []) := by
  intro now db c hwf h hfresh
  obtain ⟨s2, heq, hc, hl⟩ := insert_course_success now db c hwf h
  have hrowid : (courseRowOf db.working now c).id = db.working.nextCourseId := rfl
  have hrowtags : (courseRowOf db.working now c).tags
      = encTags (c.tags.getD []) := rfl
  have hfind1 : s2.courses.find? (fun r => r.id = db.working.nextCourseId)
      = some (courseRowOf db.working now c) := by
    rw [hc, List.find?_append]
    have hnone : db.working.courses.find? (fun r => r.id = db.working.nextCourseId)
        = none := by
      rw [List.find?_eq_none]
      intro r hr
      simp [hfresh r hr]
    rw [hnone]
    simp [List.find?_cons, hrowid]
  have hfind2 : s2.courses.find? (fun r => r.youtube_id = c.youtube_id)
      = some (courseRowOf db.working now c) := by
    rw [hc, List.find?_append]
    have hall : ∀ r ∈ db.working.courses, ¬ r.youtube_id = c.youtube_id := by
      simpa using h
    have hnone : db.working.courses.find? (fun r => r.youtube_id = c.youtube_id)
        = none := by
      rw [List.find?_eq_none]
      intro r hr
      simp [hall r hr]
    rw [hnone]
    simp [List.find?_cons,
      show (courseRowOf db.working now c).youtube_id = c.youtube_id from rfl]
  have hfirst : (get_course_by_id (insert_course now db c).1
      db.working.nextCourseId).map (fun co => co.tags) = some (c.tags.getD []) := by
    rw [heq]
    unfold get_course_by_id
    rw [show (⟨s2, s2⟩ : Conn).working = s2 from rfl, hfind1]
    simp only [Option.map_some']
    rw [show (courseRowOf db.working now c).tags = encTags (c.tags.getD []) from rfl]
    rw [decodeRowTags_encTags]
  have hsecond : (get_course_by_youtube_id (insert_course now db c).1
      c.youtube_id).map (fun co => co.tags) = some (c.tags.getD []) := by
    rw [heq]
    unfold get_course_by_youtube_id
    rw [show (⟨s2, s2⟩ : Conn).working = s2 from rfl, hfind2]
    simp only [Option.map_some']
    rw [show (courseRowOf db.working now c).tags = encTags (c.tags.getD []) from rfl]
    rw [decodeRowTags_encTags]
  exact ⟨hfirst, hsecond, fun htags => by simpa [htags] using hfirst⟩

/-- Witness for C9 at a concrete input: a course with tags
["beginner", "crash course"] reads back with exactly those tags, and
course B (no tags field) reads back with the empty list. -/
theorem C9_tags_roundtrip_witness :
    ((get_course_by_id (insert_course ("t0") emptyConn courseRecTagged).1
        emptyConn.working.nextCourseId).map (fun co => co.tags)
      = some [("beginner"), ("crash course")])
    ∧ ((get_course_by_id (insert_course ("t0") emptyConn courseRecB).1
        emptyConn.working.nextCourseId).map (fun co => co.tags) = some []) := by
  constructor
  · exact (C9_tags_roundtrip ("t0") emptyConn courseRecTagged
      (by unfold wfCourseRecord wfLesson; decide) rfl (by simp [emptyConn, emptyStore])).1
  · exact (C9_tags_roundtrip ("t0") emptyConn courseRecB
      (by unfold wfCourseRecord wfLesson; decide) rfl (by simp [emptyConn, emptyStore])).2.2 rfl

/-! ## Course search and the listing endpoint (database.py
`search_courses`, api_server.py `get_courses`)

`search_courses` builds a WHERE clause from the present (truthy) filters,
sorts by the requested column/direction, and applies `LIMIT ? OFFSET ?`
with the limit capped at 100.  `get_courses` runs the page query, then the
same filters with limit 999999 / offset 0 for the total count (999999 is
capped to 100 by `search_courses`), and assembles the pagination object.
SQL `LIKE '%x%'` is ASCII-case-insensitive substring containment; the
ORDER BY is modelled as a sort by the named column (an unknown column
name, an SQL error in the source, sorts nothing here), which the claims
only touch through its length. -/

/-- The filter dict handed to `search_courses` (absent keys are `none`;
numeric values appear after Python's `int()`/SQLite's coercion). -/
structure SearchFilters where
  category : Option String
  subcategory : Option String
  language : Option String
  language_name : Option String
  author : Option String
  search : Option String
  min_lessons : Option Nat
  max_duration : Option Nat
  min_duration : Option Nat
  sort : Option String
  order : Option String
  limit : Option Nat
  offset : Option Nat
deriving Repr, DecidableEq

/-- SQL `LIKE '%needle%'` (ASCII-case-insensitive substring test). -/
def likeContains (needle hay : String) : Bool :=
  containsSub (needle.toList.map Char.toLower) (hay.toList.map Char.toLower)

/-- `if filters.get(key):` — a missing or falsy (empty-string) value adds
no WHERE clause. -/
def pyStrFilter (o : Option String) (test : String → Bool) : Bool :=
  match o with
  | none => true
  | some v => if v = "" then true else test v

/-- `if filters.get(key):` for a numeric filter — 0 is falsy. -/
def pyNatFilter (o : Option Nat) (test : Nat → Bool) : Bool :=
  match o with
  | none => true
  | some v => if v = 0 then true else test v

/-- The WHERE clause of `search_courses` (database.py lines 186-220). -/
def matchesFilters (f : SearchFilters) (r : CourseRow) : Bool :=
  pyStrFilter f.category (fun v => r.category = v)
  && pyStrFilter f.subcategory (fun v => r.subcategory = v)
  && pyStrFilter f.language (fun v => r.language = v)
  && pyStrFilter f.language_name (fun v => r.language_name = v)
  && pyStrFilter f.author (fun v => likeContains v r.author_name)
  && pyStrFilter f.search (fun v => likeContains v r.title || likeContains v r.description)
  && pyNatFilter f.min_lessons (fun v => v ≤ r.lesson_count)
  && pyNatFilter f.max_duration (fun v => r.duration_min ≤ v)
  && pyNatFilter f.min_duration (fun v => v ≤ r.duration_min)

/-- Comparison by the ORDER BY column. -/
def rowOrd (col : String) (a b : CourseRow) : Ordering :=
  if col = "id" then compare a.id b.id
  else if col = "youtube_id" then compare a.youtube_id b.youtube_id
  else if col = "category" then compare a.category b.category
  else if col = "subcategory" then compare a.subcategory b.subcategory
  else if col = "title" then compare a.title b.title
  else if col = "author_name" then compare a.author_name b.author_name
  else if col = "author_subscribers" then compare a.author_subscribers b.author_subscribers
  else if col = "duration_min" then compare a.duration_min b.duration_min
  else if col = "lesson_count" then compare a.lesson_count b.lesson_count
  else if col = "language" then compare a.language b.language
  else if col = "language_name" then compare a.language_name b.language_name
  else if col = "published_at" then compare a.published_at b.published_at
  else if col = "last_updated" then compare a.last_updated b.last_updated
  else if col = "scraped_at" then compare a.scraped_at b.scraped_at
  else if col = "created_at" then compare a.created_at b.created_at
  else Ordering.eq

/-- `ORDER BY {col} {dir}` as the sort's `le` relation (any direction other
than ASC is DESC, as the source defaults to DESC). -/
def rowLe (col dir : String) (a b : CourseRow) : Bool :=
  if dir = "ASC" then !(rowOrd col a b == Ordering.gt)
  else !(rowOrd col a b == Ordering.lt)

/-- `DatabaseManager.search_courses` (database.py lines 177-245): filter,
sort, `LIMIT min(limit,100) OFFSET offset`, and decode each row's tags. -/
def search_courses (db : Conn) (f : SearchFilters) : List (CourseRow × List String) :=
  let rows := db.working.courses.filter (matchesFilters f)
  let sorted := sortList (rowLe (f.sort.getD ("created_at")) (f.order.getD ("DESC"))) rows
  let lim := min (f.limit.getD 20) 100
  let off := f.offset.getD 0
  ((sorted.drop off).take lim).map (fun r => (r, decodeRowTags r.tags))

/-- The query-string arguments `get_courses` reads (numeric ones after
`int()`). -/
structure CoursesQuery where
  category : Option String
  subcategory : Option String
  language : Option String
  language_name : Option String
  author : Option String
  search : Option String
  q : Option String
  min_lessons : Option Nat
  max_duration : Option Nat
  min_duration : Option Nat
  sort : Option String
  order : Option String
  limit : Option Nat
  offset : Option Nat
deriving Repr, DecidableEq

/-- The filter dict `get_courses` builds (api_server.py lines 30-47):
`search or q` (falsy-or), defaults for sort/order, capped limit; `None`
values dropped. -/
def gcFilters (qr : CoursesQuery) : SearchFilters :=
  { category := qr.category
    subcategory := qr.subcategory
    language := qr.language
    language_name := qr.language_name
    author := qr.author
    search := match qr.search with
      | some s => if s = "" then qr.q else some s
      | none => qr.q
    min_lessons := qr.min_lessons
    max_duration := qr.max_duration
    min_duration := qr.min_duration
    sort := some (qr.sort.getD ("created_at"))
    order := some (qr.order.getD ("DESC"))
    limit := some (min (qr.limit.getD 20) 100)
    offset := some (qr.offset.getD 0) }

/-- The count query's filters (api_server.py lines 52-54): limit/offset/
sort/order removed, then limit 999999 and offset 0. -/
def gcTotalFilters (qr : CoursesQuery) : SearchFilters :=
  { gcFilters qr with
    sort := none
    order := none
    limit := some 999999
    offset := some 0 }

/-- The response's pagination object. -/
structure Pagination where
  limit : Nat
  offset : Nat
  total : Nat
  page : Nat
  total_pages : Nat
deriving Repr, DecidableEq

/-- The `/api/courses` response body (`success` is constant on this
path). -/
structure CoursesResponse where
  data : List (CourseRow × List String)
  pagination : Pagination
deriving Repr, DecidableEq

/-- `get_courses` (api_server.py lines 26-71): page query, count query,
pagination arithmetic (`page = offset // limit + 1`,
`total_pages = (total + limit - 1) // limit`). -/
def get_courses (db : Conn) (qr : CoursesQuery) : CoursesResponse :=
  let filters := gcFilters qr
  let courses := search_courses db filters
  let total := (search_courses db (gcTotalFilters qr)).length
  let lim := filters.limit.getD 20
  let off := filters.offset.getD 0
  { data := courses
    pagination :=
      { limit := lim
        offset := off
        total := total
        page := off / lim + 1
        total_pages := (total + lim - 1) / lim } }

theorem length_insertSorted {α : Type} (le : α → α → Bool) (x : α)
    (l : List α) : (insertSorted le x l).length = l.length + 1 := by
  induction l with
  | nil => rfl
  | cons y ys ih =>
    unfold insertSorted
    split
    · simp
    · simp [ih]

theorem length_sortList {α : Type} (le : α → α → Bool) (l : List α) :
    (sortList le l).length = l.length := by
  induction l with
  | nil => rfl
  | cons x xs ih =>
    unfold sortList
    rw [length_insertSorted, ih]
    rfl

theorem search_courses_length (db : Conn) (f : SearchFilters) :
    (search_courses db f).length
      = min (min (f.limit.getD 20) 100)
          ((db.working.courses.filter (matchesFilters f)).length - f.offset.getD 0) := by
  unfold search_courses
  simp only [List.length_map, List.length_take, List.length_drop, length_sortList]

/-- C6: with exactly 45 rows matching the given filters, the listing
endpoint called with limit=20 and offset=0 returns exactly 20 rows and a
pagination object with total=45, total_pages=3 and page=1. -/
theorem C6_search_pagination (db : Conn) (qr : CoursesQuery)
    (hlim : qr.limit = some 20) (hoff : qr.offset = some 0)
    (hcount : (db.working.courses.filter (matchesFilters (gcFilters qr))).length = 45) :
    (get_courses db qr).data.length = 20
    ∧ (get_courses db qr).pagination.total = 45
    ∧ (get_courses db qr).pagination.total_pages = 3
    ∧ (get_courses db qr).pagination.page = 1 := by
  have hl2 : (gcFilters qr).limit = some 20 := by simp [gcFilters, hlim]
  have ho2 : (gcFilters qr).offset = some 0 := by simp [gcFilters, hoff]
  have hsame : matchesFilters (gcTotalFilters qr) = matchesFilters (gcFilters qr) := by
    funext r
    rfl
  have hcount2 : (db.working.courses.filter (matchesFilters (gcTotalFilters qr))).length
      = 45 := by rw [hsame, hcount]
  have hdata : (get_courses db qr).data.length = 20 := by
    show (search_courses db (gcFilters qr)).length = 20
    rw [search_courses_length, hl2, ho2, hcount]
    decide
  have htotal : (get_courses db qr).pagination.total = 45 := by
    show (search_courses db (gcTotalFilters qr)).length = 45
    rw [search_courses_length, hcount2]
    rfl
  refine ⟨hdata, htotal, ?_, ?_⟩
  · show ((search_courses db (gcTotalFilters qr)).length
        + (gcFilters qr).limit.getD 20 - 1) / (gcFilters qr).limit.getD 20 = 3
    have h45 : (search_courses db (gcTotalFilters qr)).length = 45 := htotal
    rw [h45, hl2]
    decide
  · show (gcFilters qr).offset.getD 0 / (gcFilters qr).limit.getD 20 + 1 = 1
    rw [hl2, ho2]
    decide

/-- A row with default field values, for the concrete C6 instance. -/
def row0 : CourseRow :=
  { id := 1, youtube_id := "y", url := "u", category := "Cat",
    subcategory := "Cat", title := "T", description := "",
    author_name := "", author_channel_id := "", author_homepage := "",
    author_subscribers := 0, duration_min := 0, lesson_count := 0,
    language := "en", language_name := "English", thumbnail := "",
    published_at := "", last_updated := "", verified_free := 1,
    scraped_at := "", tags := ['[', ']'], created_at := "" }

/-- A store holding 45 course rows. -/
def db45 : Conn :=
  { committed := { courses := List.replicate 45 row0, lessons := [],
                   nextCourseId := 46, nextLessonId := 1 }
    working := { courses := List.replicate 45 row0, lessons := [],
                 nextCourseId := 46, nextLessonId := 1 } }

/-- The request `limit=20&offset=0` with no filters. -/
def q20 : CoursesQuery :=
  { category := none, subcategory := none, language := none,
    language_name := none, author := none, search := none, q := none,
    min_lessons := none, max_duration := none, min_duration := none,
    sort := none, order := none, limit := some 20, offset := some 0 }

/-- Witness for C6 at the concrete 45-row store. -/
theorem C6_search_pagination_witness :
    (db45.working.courses.filter (matchesFilters (gcFilters q20))).length = 45
    ∧ (get_courses db45 q20).data.length = 20
    ∧ (get_courses db45 q20).pagination.total = 45
    ∧ (get_courses db45 q20).pagination.total_pages = 3
    ∧ (get_courses db45 q20).pagination.page = 1 := by
  have h45 : (db45.working.courses.filter (matchesFilters (gcFilters q20))).length
      = 45 := by decide
  obtain ⟨h1, h2, h3, h4⟩ := C6_search_pagination db45 q20 rfl rfl h45
  exact ⟨h45, h1, h2, h3, h4⟩

/-! ## Collection jobs (api_server.py, `start_collection` /
`run_collection`)

`start_collection` estimates `total = (len(categories) +
len(custom_keywords)) * courses_per_category` and spawns `run_collection`,
which appends to `collected_courses` and writes
`job['collected'] = len(collected_courses)` after every accepted
candidate.  Custom keywords are processed first, each attempting only
`playlists[:courses_per_category]`; then each requested category (skipped
when not in the fixed keyword table) iterates its keyword list, breaking
once its per-category yield reaches the cap.  The remote search and the
per-candidate assembly are the environment: an assembly attempt either
raises (caught and logged), rejects the candidate, or yields a course.
`run_collection` below returns the final `len(collected_courses)` together
with the list of successive values written to the job's `collected`
field. -/

/-- The fixed `search_keywords` table (collector.py lines 25-72): category
names with their keyword lists. -/
def search_keywords : List (String × List String) :=
  [ (("AI/ML"),
     [("machine learning course"), ("deep learning tutorial"),
      ("artificial intelligence course"), ("neural networks tutorial"),
      ("tensorflow course"), ("pytorch tutorial"), ("AI course"),
      ("computer vision course"), ("NLP tutorial"), ("reinforcement learning")]),
    (("Web Dev"),
     [("web development course"), ("javascript tutorial"), ("react course"),
      ("vue tutorial"), ("angular course"), ("node.js tutorial"),
      ("full stack development"), ("web programming"), ("HTML CSS tutorial"),
      ("responsive design course"), ("frontend development"), ("backend development")]),
    (("Data Science"),
     [("data science course"), ("python data analysis"), ("pandas tutorial"),
      ("data visualization"), ("statistics course"), ("SQL tutorial"),
      ("big data course"), ("data engineering"), ("jupyter notebook tutorial"),
      ("numpy course")]),
    (("Mobile"),
     [("android development course"), ("iOS development tutorial"),
      ("react native course"), ("flutter tutorial"), ("mobile app development"),
      ("swift course"), ("kotlin tutorial"), ("app development course")]),
    (("Cloud"),
     [("AWS course"), ("Azure tutorial"), ("google cloud course"),
      ("cloud computing tutorial"), ("docker course"), ("kubernetes tutorial"),
      ("serverless course"), ("cloud architecture")]),
    (("Cybersecurity"),
     [("cybersecurity course"), ("ethical hacking tutorial"),
      ("network security course"), ("penetration testing tutorial"),
      ("information security course"), ("CISSP tutorial"), ("security course")]),
    (("DevOps"),
     [("DevOps course"), ("CI/CD tutorial"), ("jenkins course"),
      ("terraform tutorial"), ("ansible course"), ("infrastructure as code"),
      ("site reliability engineering")]),
    (("Programming"),
     [("python programming course"), ("java tutorial"), ("C++ course"),
      ("javascript course"), ("go programming tutorial"), ("rust course"),
      ("programming fundamentals"), ("coding course"),
      ("software development tutorial")]),
    (("Database"),
     [("database course"), ("SQL tutorial"), ("MongoDB course"),
      ("PostgreSQL tutorial"), ("database design course"), ("MySQL tutorial"),
      ("NoSQL course")]),
    (("Design"),
     [("UI design course"), ("UX design tutorial"), ("graphic design course"),
      ("figma tutorial"), ("web design course"), ("design thinking tutorial"),
      ("Adobe XD course")]) ]

/-- The remote side of a collection run: the search results per keyword
(a failed search is `[]`), and each per-candidate assembly attempt —
an exception (caught and logged), a rejection, or a course. -/
structure JobEnv where
  search : String → List SearchItem
  process : SearchItem → String → Except Unit (Option Course)

/-- The inner `for playlist in playlists` loop of the custom-keyword phase
(api_server.py lines 333-343), appending each accepted course and
recording each `collected` update. -/
def attemptAll (env : JobEnv) (cat : String) :
    List SearchItem → List Course → List Nat → List Course × List Nat
  | [], acc, tr => (acc, tr)
  | p :: ps, acc, tr =>
    match env.process p cat with
    | Except.ok (some c) =>
        attemptAll env cat ps (acc ++ [c]) (tr ++ [acc.length + 1])
    | _ => attemptAll env cat ps acc tr

/-- The custom-keyword phase (api_server.py lines 327-343): each keyword
attempts only `playlists[:courses_per_category]`. -/
def customPhase (env : JobEnv) (cpc : Nat) :
    List String → List Course → List Nat → List Course × List Nat
  | [], acc, tr => (acc, tr)
  | kw :: kws, acc, tr =>
    let r := attemptAll env ("Custom") ((env.search kw).take cpc) acc tr
    customPhase env cpc kws r.1 r.2

/-- The inner `for playlist in playlists` loop of the category phase
(api_server.py lines 360-374), breaking once the category's yield reaches
the cap. -/
def catInner (env : JobEnv) (cpc : Nat) (cat : String) :
    List SearchItem → List Course → List Course → List Nat →
      List Course × List Course × List Nat
  | [], catAcc, acc, tr => (catAcc, acc, tr)
  | p :: ps, catAcc, acc, tr =>
    if cpc ≤ catAcc.length then (catAcc, acc, tr)
    else
      match env.process p cat with
      | Except.ok (some c) =>
          catInner env cpc cat ps (catAcc ++ [c]) (acc ++ [c])
            (tr ++ [acc.length + 1])
      | _ => catInner env cpc cat ps catAcc acc tr

/-- The `for keyword in keywords` loop of the category phase (api_server.py
lines 354-374). -/
def catKeywords (env : JobEnv) (cpc : Nat) (cat : String) :
    List String → List Course → List Course → List Nat →
      List Course × List Course × List Nat
  | [], catAcc, acc, tr => (catAcc, acc, tr)
  | kw :: kws, catAcc, acc, tr =>
    if cpc ≤ catAcc.length then (catAcc, acc, tr)
    else
      let r := catInner env cpc cat (env.search kw) catAcc acc tr
      catKeywords env cpc cat kws r.1 r.2.1 r.2.2

/-- The `for category in categories` loop (api_server.py lines 346-374);
a category outside the keyword table is skipped. -/
def categoriesPhase (env : JobEnv) (cpc : Nat) :
    List String → List Course → List Nat → List Course × List Nat
  | [], acc, tr => (acc, tr)
  | cat :: cats, acc, tr =>
    match search_keywords.find? (fun p => p.1 = cat) with
    | none => categoriesPhase env cpc cats acc tr
    | some entry =>
        let r := catKeywords env cpc cat entry.2 [] acc tr
        categoriesPhase env cpc cats r.2.1 r.2.2

/-- `run_collection` (api_server.py lines 307-410), reduced to its
counting behaviour: the final `len(collected_courses)` and the successive
values written to the job's `collected` field. -/
def run_collection (env : JobEnv) (cpc : Nat)
    (categories custom_keywords : List String) : Nat × List Nat :=
  let r1 := customPhase env cpc custom_keywords [] []
  let r2 := categoriesPhase env cpc categories r1.1 r1.2
  (r2.1.length, r2.2)

theorem attemptAll_spec (env : JobEnv) (cat : String) :
    ∀ (ps : List SearchItem) (acc : List Course) (tr : List Nat),
      acc.length ≤ (attemptAll env cat ps acc tr).1.length
      ∧ (attemptAll env cat ps acc tr).1.length ≤ acc.length + ps.length
      ∧ ∃ ext, (attemptAll env cat ps acc tr).2 = tr ++ ext
          ∧ ∀ t ∈ ext, t ≤ (attemptAll env cat ps acc tr).1.length := by
  intro ps
  induction ps with
  | nil =>
    intro acc tr
    exact ⟨Nat.le_refl _, by simp [attemptAll], [], by simp [attemptAll], by simp⟩
  | cons p ps ih =>
    intro acc tr
    cases hp : env.process p cat with
    | ok o =>
      cases o with
      | some c =>
        simp only [attemptAll, hp]
        obtain ⟨m1, m2, ext, he, hb⟩ := ih (acc ++ [c]) (tr ++ [acc.length + 1])
        refine ⟨?_, ?_, (acc.length + 1) :: ext, ?_, ?_⟩
        · calc acc.length ≤ (acc ++ [c]).length := by simp
            _ ≤ _ := m1
        · simp only [List.length_append, List.length_cons, List.length_nil] at m2 ⊢
          omega
        · rw [he, List.append_assoc]
          rfl
        · intro t ht
          rcases List.mem_cons.1 ht with rfl | ht2
          · calc acc.length + 1 = (acc ++ [c]).length := by simp
              _ ≤ _ := m1
          · exact hb t ht2
      | none =>
        simp only [attemptAll, hp]
        obtain ⟨m1, m2, ext, he, hb⟩ := ih acc tr
        exact ⟨m1, by simp only [List.length_cons]; omega, ext, he, hb⟩
    | error e =>
      simp only [attemptAll, hp]
      obtain ⟨m1, m2, ext, he, hb⟩ := ih acc tr
      exact ⟨m1, by simp only [List.length_cons]; omega, ext, he, hb⟩

theorem customPhase_spec (env : JobEnv) (cpc : Nat) :
    ∀ (kws : List String) (acc : List Course) (tr : List Nat),
      acc.length ≤ (customPhase env cpc kws acc tr).1.length
      ∧ (customPhase env cpc kws acc tr).1.length ≤ acc.length + kws.length * cpc
      ∧ ∃ ext, (customPhase env cpc kws acc tr).2 = tr ++ ext
          ∧ ∀ t ∈ ext, t ≤ (customPhase env cpc kws acc tr).1.length := by
  intro kws
  induction kws with
  | nil =>
    intro acc tr
    exact ⟨Nat.le_refl _, by simp [customPhase], [], by simp [customPhase], by simp⟩
  | cons kw kws ih =>
    intro acc tr
    simp only [customPhase]
    obtain ⟨a1, a2, ext1, he1, hb1⟩ :=
      attemptAll_spec env ("Custom") ((env.search kw).take cpc) acc tr
    obtain ⟨c1, c2, ext2, he2, hb2⟩ :=
      ih (attemptAll env ("Custom") ((env.search kw).take cpc) acc tr).1
        (attemptAll env ("Custom") ((env.search kw).take cpc) acc tr).2
    have htake : ((env.search kw).take cpc).length ≤ cpc := by
      simp [List.length_take]
    refine ⟨Nat.le_trans a1 c1, ?_, ext1 ++ ext2, ?_, ?_⟩
    · rw [List.length_cons, Nat.succ_mul]
      set A := kws.length * cpc with hA
      omega
    · rw [he2, he1, List.append_assoc]
    · intro t ht
      rcases List.mem_append.1 ht with ht1 | ht2
      · exact Nat.le_trans (hb1 t ht1) c1
      · exact hb2 t ht2

theorem catInner_spec (env : JobEnv) (cpc : Nat) (cat : String) :
    ∀ (ps : List SearchItem) (catAcc acc : List Course) (tr : List Nat),
      catAcc.length ≤ cpc →
      (catInner env cpc cat ps catAcc acc tr).1.length ≤ cpc
      ∧ catAcc.length ≤ (catInner env cpc cat ps catAcc acc tr).1.length
      ∧ (catInner env cpc cat ps catAcc acc tr).2.1.length + catAcc.length
          = acc.length + (catInner env cpc cat ps catAcc acc tr).1.length
      ∧ ∃ ext, (catInner env cpc cat ps catAcc acc tr).2.2 = tr ++ ext
          ∧ ∀ t ∈ ext, t ≤ (catInner env cpc cat ps catAcc acc tr).2.1.length := by
  intro ps
  induction ps with
  | nil =>
    intro catAcc acc tr h
    exact ⟨h, Nat.le_refl _, by simp [catInner], [], by simp [catInner], by simp⟩
  | cons p ps ih =>
    intro catAcc acc tr h
    by_cases hcap : cpc ≤ catAcc.length
    · simp only [catInner, if_pos hcap]
      exact ⟨h, Nat.le_refl _, trivial, [], by simp, by simp⟩
    · cases hp : env.process p cat with
      | ok o =>
        cases o with
        | some c =>
          simp only [catInner, if_neg hcap, hp]
          have hlen : (catAcc ++ [c]).length ≤ cpc := by
            simp only [List.length_append, List.length_cons, List.length_nil]
            omega
          obtain ⟨m1, m2, m3, ext, he, hb⟩ :=
            ih (catAcc ++ [c]) (acc ++ [c]) (tr ++ [acc.length + 1]) hlen
          have hgrow : acc.length + 1
              ≤ (catInner env cpc cat ps (catAcc ++ [c]) (acc ++ [c])
                  (tr ++ [acc.length + 1])).2.1.length := by
            simp only [List.length_append, List.length_cons, List.length_nil] at m2 m3
            omega
          refine ⟨m1, ?_, ?_, (acc.length + 1) :: ext, ?_, ?_⟩
          · calc catAcc.length ≤ (catAcc ++ [c]).length := by simp
              _ ≤ _ := m2
          · simp only [List.length_append, List.length_cons, List.length_nil] at m3 ⊢
            omega
          · rw [he, List.append_assoc]
            rfl
          · intro t ht
            rcases List.mem_cons.1 ht with rfl | ht2
            · exact hgrow
            · exact hb t ht2
        | none =>
          simp only [catInner, if_neg hcap, hp]
          exact ih catAcc acc tr h
      | error e =>
        simp only [catInner, if_neg hcap, hp]
        exact ih catAcc acc tr h

theorem catKeywords_spec (env : JobEnv) (cpc : Nat) (cat : String) :
    ∀ (kws : List String) (catAcc acc : List Course) (tr : List Nat),
      catAcc.length ≤ cpc →
      (catKeywords env cpc cat kws catAcc acc tr).1.length ≤ cpc
      ∧ catAcc.length ≤ (catKeywords env cpc cat kws catAcc acc tr).1.length
      ∧ (catKeywords env cpc cat kws catAcc acc tr).2.1.length + catAcc.length
          = acc.length + (catKeywords env cpc cat kws catAcc acc tr).1.length
      ∧ ∃ ext, (catKeywords env cpc cat kws catAcc acc tr).2.2 = tr ++ ext
          ∧ ∀ t ∈ ext, t ≤ (catKeywords env cpc cat kws catAcc acc tr).2.1.length := by
  intro kws
  induction kws with
  | nil =>
    intro catAcc acc tr h
    exact ⟨h, Nat.le_refl _, by simp [catKeywords], [], by simp [catKeywords], by simp⟩
  | cons kw kws ih =>
    intro catAcc acc tr h
    by_cases hcap : cpc ≤ catAcc.length
    · simp only [catKeywords, if_pos hcap]
      exact ⟨h, Nat.le_refl _, trivial, [], by simp, by simp⟩
    · simp only [catKeywords, if_neg hcap]
      obtain ⟨i1, i2, i3, ext1, he1, hb1⟩ :=
        catInner_spec env cpc cat (env.search kw) catAcc acc tr h
      obtain ⟨k1, k2, k3, ext2, he2, hb2⟩ :=
        ih (catInner env cpc cat (env.search kw) catAcc acc tr).1
          (catInner env cpc cat (env.search kw) catAcc acc tr).2.1
          (catInner env cpc cat (env.search kw) catAcc acc tr).2.2 i1
      refine ⟨k1, Nat.le_trans i2 k2, by omega, ext1 ++ ext2, ?_, ?_⟩
      · rw [he2, he1, List.append_assoc]
      · intro t ht
        rcases List.mem_append.1 ht with ht1 | ht2
        · exact Nat.le_trans (hb1 t ht1) (by omega)
        · exact hb2 t ht2

theorem categoriesPhase_spec (env : JobEnv) (cpc : Nat) :
    ∀ (cats : List String) (acc : List Course) (tr : List Nat),
      acc.length ≤ (categoriesPhase env cpc cats acc tr).1.length
      ∧ (categoriesPhase env cpc cats acc tr).1.length ≤ acc.length + cats.length * cpc
      ∧ ∃ ext, (categoriesPhase env cpc cats acc tr).2 = tr ++ ext
          ∧ ∀ t ∈ ext, t ≤ (categoriesPhase env cpc cats acc tr).1.length := by
  intro cats
  induction cats with
  | nil =>
    intro acc tr
    exact ⟨Nat.le_refl _, by simp [categoriesPhase], [],
      by simp [categoriesPhase], by simp⟩
  | cons cat cats ih =>
    intro acc tr
    cases hf : search_keywords.find? (fun p => p.1 = cat) with
    | none =>
      simp only [categoriesPhase, hf]
      obtain ⟨m1, m2, ext, he, hb⟩ := ih acc tr
      refine ⟨m1, ?_, ext, he, hb⟩
      rw [List.length_cons, Nat.succ_mul]
      set A := cats.length * cpc with hA
      omega
    | some entry =>
      simp only [categoriesPhase, hf]
      obtain ⟨k1, k2, k3, ext1, he1, hb1⟩ :=
        catKeywords_spec env cpc cat entry.2 [] acc tr (by simp)
      obtain ⟨m1, m2, ext2, he2, hb2⟩ :=
        ih (catKeywords env cpc cat entry.2 [] acc tr).2.1
          (catKeywords env cpc cat entry.2 [] acc tr).2.2
      refine ⟨?_, ?_, ext1 ++ ext2, ?_, ?_⟩
      · simp only [List.length_nil] at k3
        omega
      · rw [List.length_cons, Nat.succ_mul]
        set A := cats.length * cpc with hA
        simp only [List.length_nil] at k3
        omega
      · rw [he2, he1, List.append_assoc]
      · intro t ht
        rcases List.mem_append.1 ht with ht1 | ht2
        · exact Nat.le_trans (hb1 t ht1) m1
        · exact hb2 t ht2

/-- C10: throughout a collection run with per-category count `cpc`, the
job's `collected` counter never exceeds the estimated total
`(number of requested categories + number of custom keywords) * cpc`:
every value written to it, and the final count, are bounded by the total
(each custom keyword contributes at most `cpc` courses, and each category
stops once its per-category cap is reached). -/
theorem C10_collected_within_estimate (env : JobEnv) (cpc : Nat)
    (categories custom_keywords : List String) :
    (run_collection env cpc categories custom_keywords).1
        ≤ (categories.length + custom_keywords.length) * cpc
    ∧ ∀ t ∈ (run_collection env cpc categories custom_keywords).2,
        t ≤ (categories.length + custom_keywords.length) * cpc := by
  obtain ⟨c1, c2, ext1, he1, hb1⟩ := customPhase_spec env cpc custom_keywords [] []
  obtain ⟨g1, g2, ext2, he2, hb2⟩ := categoriesPhase_spec env cpc categories
    (customPhase env cpc custom_keywords [] []).1
    (customPhase env cpc custom_keywords [] []).2
  have htotal : (categoriesPhase env cpc categories
      (customPhase env cpc custom_keywords [] []).1
      (customPhase env cpc custom_keywords [] []).2).1.length
      ≤ (categories.length + custom_keywords.length) * cpc := by
    rw [Nat.add_mul]
    set A := categories.length * cpc with hA
    set B := custom_keywords.length * cpc with hB
    simp only [List.length_nil] at c2
    omega
  constructor
  · exact htotal
  · intro t ht
    have ht2 : t ∈ (customPhase env cpc custom_keywords [] []).2 ++ ext2 := by
      show t ∈ _
      rw [← he2]
      exact ht
    rcases List.mem_append.1 ht2 with htr | htr
    · rw [he1] at htr
      simp only [List.nil_append] at htr
      exact Nat.le_trans (Nat.le_trans (hb1 t htr) g1) htotal
    · exact Nat.le_trans (hb2 t htr) htotal

/-- A concrete assembled course for the C10 instance. -/
def course0 : Course :=
  { youtube_id := "PL1", url := "u", category := "AI/ML",
    subcategory := "AI/ML", title := "T",
    author := { name := "ch", channel_id := "c", homepage := "h", subscribers := 0 },
    description := "", duration_min := 10, lesson_count := 5, lessons := [],
    language := "en", language_name := "English", thumbnail := "",
    published_at := "", last_updated := "t0", verified_free := true,
    scraped_at := "t0", tags := [] }

/-- A run environment where every search yields three candidates and every
attempt succeeds. -/
def envJob : JobEnv :=
  { search := fun _ => [itemA, itemA, itemA]
    process := fun _ _ => Except.ok (some course0) }

/-- Witness for C10: one category plus one custom keyword with
per-category count 2 collect exactly 4 courses (the trace is [1,2,3,4]),
and the theorem bounds both the final count and the trace value 3 by the
estimated total 4. -/
theorem C10_collected_within_estimate_witness :
    (run_collection envJob 2 [("AI/ML")] [("kw")]).2 = [1, 2, 3, 4]
    ∧ (run_collection envJob 2 [("AI/ML")] [("kw")]).1
        ≤ (([("AI/ML")] : List String).length + ([("kw")] : List String).length) * 2
    ∧ 3 ≤ (([("AI/ML")] : List String).length + ([("kw")] : List String).length) * 2 := by
  refine ⟨by decide, (C10_collected_within_estimate envJob 2 [("AI/ML")] [("kw")]).1,
    (C10_collected_within_estimate envJob 2 [("AI/ML")] [("kw")]).2 3 (by decide)⟩

end CourseSpider
